import Mathlib

/-!
Shallow embedding of the shinthelix-auto-reff bulk wallet registration
scripts (src/register.js and src/unnamed/part_000) together with proofs
about their registration, retry, failover, and persistence behaviour.

External capabilities (key generation, message signing, the HTTP client,
the system clock, DNS probing) are modelled as explicit parameters or
oracles indexed by attempt number; observable effects (HTTP posts, delays,
file writes, connectivity checks) are recorded in an event trace.
-/

namespace Synthelix

/-- Configuration object shared by both variants (src/register.js lines 9-16,
src/unnamed/part_000 lines 8-14). -/
structure Config where
  synthelixApi : String
  outputDir : String
  maxRetries : Nat
  retryDelay : Nat
  defaultWalletCount : Nat
  dnsCheckTimeout : Nat
deriving DecidableEq, Repr

/-- The literal CONFIG of src/register.js (part_000 agrees on every field it has). -/
def CONFIG : Config where
  synthelixApi := "https://api.synthelix.io/v1/wallet/register"
  outputDir := "synthelix_wallets"
  maxRetries := 3
  retryDelay := 2000
  defaultWalletCount := 1
  dnsCheckTimeout := 5000

/-- Hostname extracted from CONFIG.synthelixApi by `new URL(...).hostname`
(src/register.js line 26); URL parsing is an external capability. -/
def apiHostname : String := "api.synthelix.io"

/-- A generated wallet: the external key-generation capability
(`ethers.Wallet.createRandom()`) produces an address, a private key and an
optional mnemonic phrase. -/
structure Wallet where
  address : String
  privateKey : String
  mnemonic : Option String
deriving DecidableEq, Repr

/-- Parsed JSON body of an HTTP response from the registration server:
a success flag, an optional message, and arbitrary further fields
(opaque beyond the first two). -/
structure ApiResponse where
  success : Bool
  message : Option String
  extra : List (String × String)
deriving DecidableEq, Repr

/-- The JSON body POSTed to the registration endpoint
(src/register.js lines 135-141, part_000 lines 99-105). -/
structure RegistrationRequest where
  walletAddress : String
  referralCode : Option String
  signature : String
  message : String
  timestamp : String
deriving DecidableEq, Repr

/-- The record written to the per-wallet JSON file on success
(src/register.js lines 150-157, part_000 lines 114-121). -/
structure PersistedRecord where
  address : String
  privateKey : String
  mnemonic : Option String
  referralCode : String
  registeredAt : String
  apiResponse : ApiResponse
deriving DecidableEq, Repr

/-- A JavaScript Error as both scripts observe it: a message, an optional
`code` (axios sets ENOTFOUND and the like), and an optional `hostname`. -/
structure JsError where
  message : String
  code : Option String
  hostname : Option String
deriving DecidableEq, Repr

/-- Outcome of one HTTP POST as delivered by the external axios capability:
either a parsed response body, or a classified transport error. -/
inductive TransportResult where
  | ok (body : ApiResponse) : TransportResult
  | err (e : JsError) : TransportResult
deriving DecidableEq, Repr

/-- Observable effects, recorded in order of occurrence. -/
inductive Event where
  | httpPost (req : RegistrationRequest) : Event
  | delayMs (ms : Nat) : Event
  | writeFile (name : String) (record : PersistedRecord) : Event
  | netCheckEv (ok : Bool) : Event
deriving DecidableEq, Repr

/-- Requests posted within a trace, in order. -/
def postsOf (tr : List Event) : List RegistrationRequest :=
  tr.filterMap fun e =>
    match e with
    | .httpPost r => some r
    | _ => none

/-- Delays (in ms) occurring within a trace, in order. -/
def delaysOf (tr : List Event) : List Nat :=
  tr.filterMap fun e =>
    match e with
    | .delayMs m => some m
    | _ => none

/-- File writes occurring within a trace, in order. -/
def writesOf (tr : List Event) : List (String × PersistedRecord) :=
  tr.filterMap fun e =>
    match e with
    | .writeFile n r => some (n, r)
    | _ => none

def countPosts (tr : List Event) : Nat := (postsOf tr).length

def countDelays (tr : List Event) : Nat := (delaysOf tr).length

def countWrites (tr : List Event) : Nat := (writesOf tr).length

/-- JavaScript `a || b` on an optional string: `null`/`undefined` and the
empty string are falsy and select the default. -/
def jsOrStr : Option String → String → String
  | some s, d => if s = "" then d else s
  | none, d => d

/-- The default error message used when the server body carries none
(`response.data.message || 'Registration failed'`). -/
def registrationFailedMsg : String := "Registration failed"

/-- Message of the error thrown when the pre-attempt connectivity check
fails (src/register.js line 96). -/
def networkUnavailableMsg : String := "Network unavailable"

/-- ENOTFOUND error code string. -/
def enotfoundCode : String := "ENOTFOUND"

/-- Sentinel stored in the record when no referral code was used. -/
def noneSentinel : String := "none"

/-- JSON field keys of the persisted record and the response body. -/
def addressKey : String := "address"

def privateKeyKey : String := "privateKey"

def mnemonicKey : String := "mnemonic"

def referralCodeKey : String := "referralCode"

def registeredAtKey : String := "registeredAt"

def apiResponseKey : String := "apiResponse"

def successKey : String := "success"

def messageKey : String := "message"

/-- Message text `Register <address> at <timestamp>` (src/register.js
line 131, part_000 line 96). -/
def mkMessage (address timestamp : String) : String :=
  "Register " ++ address ++ " at " ++ timestamp

/-- The request built fresh for one attempt: current timestamp, message
deterministically encoding address and timestamp, signature over that
message with the wallet's private key (signing is an external capability,
passed in as `sign privateKey message`). -/
def mkRequest (sign : String → String → String) (w : Wallet)
    (referralCode : Option String) (timestamp : String) : RegistrationRequest :=
  { walletAddress := w.address
    referralCode := referralCode
    signature := sign w.privateKey (mkMessage w.address timestamp)
    message := mkMessage w.address timestamp
    timestamp := timestamp }

/-- The success record returned by registerWallet (both variants, identical
field by field). -/
def mkRecord (w : Wallet) (referralCode : Option String) (timestamp : String)
    (body : ApiResponse) : PersistedRecord :=
  { address := w.address
    privateKey := w.privateKey
    mnemonic := w.mnemonic
    referralCode := jsOrStr referralCode noneSentinel
    registeredAt := timestamp
    apiResponse := body }

/-- src/register.js lines 23-42, `checkNetworkConnection`: true iff DNS
resolution of the API hostname succeeds and the connectivity probe
(GET to google.com within the timeout) succeeds. All failure modes
collapse to `false`; it never throws to its caller. -/
def checkNetworkConnection (dnsOk googleOk : Bool) : Bool :=
  dnsOk && googleOk

/-- src/register.js lines 129-165, `registerWallet`: builds timestamp,
message and signature fresh, performs exactly one HTTP POST, classifies
the outcome by the body's success flag, and rethrows transport errors
(relabelling the message of an ENOTFOUND error). `outcome` is what the
single axios POST returns. -/
def registerWalletRJ (sign : String → String → String) (w : Wallet)
    (referralCode : Option String) (now : String) (outcome : TransportResult) :
    Except JsError PersistedRecord × List Event :=
  let req := mkRequest sign w referralCode now
  match outcome with
  | .ok body =>
    if body.success = false then
      (.error { message := jsOrStr body.message registrationFailedMsg
                code := none, hostname := none },
       [Event.httpPost req])
    else
      (.ok (mkRecord w referralCode now body), [Event.httpPost req])
  | .err e =>
    if e.code = some enotfoundCode then
      (.error { e with
                message := "DNS lookup failed: " ++ jsOrStr e.hostname CONFIG.synthelixApi },
       [Event.httpPost req])
    else
      (.error e, [Event.httpPost req])

/-- Per-attempt oracles for one wallet's retry sequence, indexed by the
attempt number (1-based): the result of the connectivity check before
attempt n, the outcome of the HTTP POST of attempt n, and the clock
reading taken at the start of attempt n. -/
structure AttemptEnv where
  netOk : Nat → Bool
  transport : Nat → TransportResult
  clock : Nat → String

/-- One iteration body of the retry loop of src/register.js lines 93-121
(the try block up to either success or the thrown error): connectivity
check first; if it fails the attempt throws `Network unavailable` without
touching the network; otherwise registerWallet runs with a fresh clock
reading and the attempt's transport outcome. -/
def attemptRJ (sign : String → String → String) (w : Wallet)
    (referralCode : Option String) (env : AttemptEnv) (n : Nat) :
    Except JsError PersistedRecord × List Event :=
  if env.netOk n then
    let r := registerWalletRJ sign w referralCode (env.clock n) (env.transport n)
    (r.1, Event.netCheckEv true :: r.2)
  else
    (.error { message := networkUnavailableMsg, code := none, hostname := none },
     [Event.netCheckEv false])

/-- The while loop of src/register.js lines 91-122:
`while (attempts < maxRetries && !registered)`; each iteration increments
the attempt counter, runs the attempt, writes the result file on success,
and on failure delays only when further attempts remain. Returns the final
attempts counter, the registered flag, and the trace. -/
def loopRJ (sign : String → String → String) (w : Wallet) (fileName : String)
    (referralCode : Option String) (env : AttemptEnv)
    (attempts : Nat) (registered : Bool) : Nat × Bool × List Event :=
  if h : attempts < CONFIG.maxRetries ∧ registered = false then
    let n := attempts + 1
    let a := attemptRJ sign w referralCode env n
    match a.1 with
    | .ok record =>
      let rest := loopRJ sign w fileName referralCode env n true
      (rest.1, rest.2.1, (a.2 ++ [Event.writeFile fileName record]) ++ rest.2.2)
    | .error _ =>
      let post := if n < CONFIG.maxRetries then [Event.delayMs CONFIG.retryDelay] else []
      let rest := loopRJ sign w fileName referralCode env n false
      (rest.1, rest.2.1, (a.2 ++ post) ++ rest.2.2)
  else
    (attempts, registered, [])
termination_by CONFIG.maxRetries - attempts
decreasing_by
  all_goals obtain ⟨h1, -⟩ := h
  all_goals omega

/-- src/register.js lines 82-127, `generateAndRegisterWallet` for a given
wallet and file name: the raw (trimmed) referral input is converted by
`referralCode || undefined` at the call of registerWallet. -/
def generateAndRegisterWalletRJ (sign : String → String → String) (w : Wallet)
    (fileName : String) (referralCode : String) (env : AttemptEnv) :
    Nat × Bool × List Event :=
  loopRJ sign w fileName (if referralCode = "" then none else some referralCode) env 0 false

/-- File name template of src/register.js line 84:
`${outputDir}/wallet_${current}_of_${total}_${Date.now()}.json`. -/
def fileNameRJ (current total nowMs : Nat) : String :=
  CONFIG.outputDir ++ "/wallet_" ++ Nat.repr current ++ "_of_" ++ Nat.repr total
    ++ "_" ++ Nat.repr nowMs ++ ".json"

/-- Possible outcomes of a whole run of src/register.js `main`. -/
inductive RunOutcome where
  | fatalExit (code : Nat) : RunOutcome
  | completed (walletsProcessed : Nat) : RunOutcome
deriving DecidableEq, Repr

/-- The sequential wallet loop of src/register.js lines 69-71
(`for (let i = 1; i <= walletCount; i++) await generateAndRegisterWallet(...)`),
given the list of indices still to process. Wallet generation, file-name
timestamps and per-attempt oracles are external inputs indexed by the
wallet number. Returns per-wallet (index, registered) summaries in order
and the concatenated event trace. -/
def bulkRunRJ (sign : String → String → String) (referralCode : String)
    (wallets : Nat → Wallet) (names : Nat → String) (envs : Nat → AttemptEnv) :
    List Nat → List (Nat × Bool) × List Event
  | [] => ([], [])
  | i :: rest =>
    let r := generateAndRegisterWalletRJ sign (wallets i) (names i) referralCode (envs i)
    let rs := bulkRunRJ sign referralCode wallets names envs rest
    ((i, r.2.1) :: rs.1, r.2.2 ++ rs.2)

/-- src/register.js `main` lines 44-80: the startup connectivity check
(lines 54-57) exits the process with code 1 when it fails, before any
wallet is processed; otherwise all `walletCount` wallets are processed
strictly in order. -/
def mainRJ (sign : String → String → String) (startupNetOk : Bool)
    (walletCount : Nat) (referralCode : String) (wallets : Nat → Wallet)
    (nowMs : Nat → Nat) (envs : Nat → AttemptEnv) :
    RunOutcome × List (Nat × Bool) × List Event :=
  if startupNetOk = false then
    (.fatalExit 1, [], [])
  else
    let rs := bulkRunRJ sign referralCode wallets
      (fun i => fileNameRJ i walletCount (nowMs i)) envs (List.range' 1 walletCount)
    (.completed walletCount, rs.1, rs.2)

/-- src/unnamed/part_000 lines 94-122, `WalletRegistrar.registerWallet`:
identical to the register.js variant except that transport errors
propagate unchanged (no ENOTFOUND relabelling) and the referral code is
normalised by `referralCode || undefined` in the payload. As in the other
variant, exactly one HTTP POST is performed per call. -/
def registerWalletP0 (sign : String → String → String) (w : Wallet)
    (referralCode : Option String) (now : String) (outcome : TransportResult) :
    Except JsError PersistedRecord × List Event :=
  let req := mkRequest sign w referralCode now
  match outcome with
  | .ok body =>
    if body.success = false then
      (.error { message := jsOrStr body.message registrationFailedMsg
                code := none, hostname := none },
       [Event.httpPost req])
    else
      (.ok (mkRecord w referralCode now body), [Event.httpPost req])
  | .err e => (.error e, [Event.httpPost req])

/-- src/unnamed/part_000 lines 76-92, `WalletRegistrar.registerWithRetry`:
recursive retry driver. On success it writes the file and stops; on
failure with `attempt < maxRetries` it waits the fixed delay and recurses
with `attempt + 1`; otherwise it gives up (no delay after the last failed
attempt). Returns whether registration succeeded and the trace. -/
def registerWithRetryP0 (sign : String → String → String) (w : Wallet)
    (fileName : String) (referralCode : Option String) (env : AttemptEnv)
    (attempt : Nat) : Bool × List Event :=
  let a := registerWalletP0 sign w referralCode (env.clock attempt) (env.transport attempt)
  match a.1 with
  | .ok record => (true, a.2 ++ [Event.writeFile fileName record])
  | .error _ =>
    if h : attempt < CONFIG.maxRetries then
      let rest := registerWithRetryP0 sign w fileName referralCode env (attempt + 1)
      (rest.1, (a.2 ++ [Event.delayMs CONFIG.retryDelay]) ++ rest.2)
    else
      (false, a.2)
termination_by CONFIG.maxRetries - attempt
decreasing_by
  omega

/-- File name template of src/unnamed/part_000 line 64:
`${outputDir}/wallet_${i}.json`. -/
def fileNameP0 (i : Nat) : String :=
  CONFIG.outputDir ++ "/wallet_" ++ Nat.repr i ++ ".json"

/-- src/unnamed/part_000 lines 59-74, `WalletRegistrar.generateWallets`:
sequentially processes the given wallet indices, invoking the retry driver
(starting at attempt 1) for each. -/
def generateWalletsP0 (sign : String → String → String)
    (referralCode : Option String) (wallets : Nat → Wallet)
    (envs : Nat → AttemptEnv) : List Nat → List (Nat × Bool) × List Event
  | [] => ([], [])
  | i :: rest =>
    let r := registerWithRetryP0 sign (wallets i) (fileNameP0 i) referralCode (envs i) 1
    let rs := generateWalletsP0 sign referralCode wallets envs rest
    ((i, r.1) :: rs.1, r.2 ++ rs.2)

/-- Run of part_000 over wallets 1..count (lines 62-70). -/
def runP0 (sign : String → String → String) (count : Nat)
    (referralCode : Option String) (wallets : Nat → Wallet)
    (envs : Nat → AttemptEnv) : List (Nat × Bool) × List Event :=
  generateWalletsP0 sign referralCode wallets envs (List.range' 1 count)

/-- Modelled from the spec: `EndpointSelector.selectWorking` over an
ordered candidate list — the multi-endpoint selector described in spec
sections 4.2 and 8 is not present in src/, which only contains its
degenerate single-endpoint instance (`checkNetworkConnection` probing
CONFIG.synthelixApi). Tries each candidate in list order via the probe and
returns the first reachable one; `none` models the fatal
NoEndpointAvailable condition. -/
def selectWorkingList (probe : String → Bool) : List String → Option String
  | [] => none
  | e :: rest => if probe e then some e else selectWorkingList probe rest

/-- The candidate endpoint list actually configured in src/: the single
endpoint CONFIG.synthelixApi. -/
def candidateEndpoints : List String := [CONFIG.synthelixApi]

/-- Endpoint selection as instantiated by the source configuration. -/
def selectWorking (probe : String → Bool) : Option String :=
  selectWorkingList probe candidateEndpoints

/-- JSON values, for the serialized persisted record
(`JSON.stringify(result, null, 2)`); rendering the tree to text and
parsing text back are the external JSON library pair. -/
inductive Json where
  | str (s : String) : Json
  | bool (b : Bool) : Json
  | null : Json
  | obj (fields : List (String × Json)) : Json

/-- First field with the given key of a JSON object, if any. -/
def Json.getField (j : Json) (key : String) : Option Json :=
  match j with
  | .obj fields => (fields.find? (fun p => p.1 = key)).map Prod.snd
  | _ => none

/-- String content of a JSON value, if it is a string. -/
def Json.asStr (j : Json) : Option String :=
  match j with
  | .str s => some s
  | _ => none

/-- JSON serialization of an ApiResponse body: the success flag, the
optional message (omitted when absent, as JSON.stringify omits undefined),
and the remaining opaque fields as strings. -/
def apiResponseToJson (r : ApiResponse) : Json :=
  .obj (((successKey, Json.bool r.success) ::
    (match r.message with
     | some m => [(messageKey, Json.str m)]
     | none => [])) ++ r.extra.map (fun p => (p.1, Json.str p.2)))

/-- Keys reserved by the ApiResponse serialization; round-tripping needs
the opaque extra fields to avoid them. -/
def reservedApiKeys : List String := [successKey, messageKey]

/-- Parse an ApiResponse back from its JSON form. -/
def parseApiResponse (j : Json) : Option ApiResponse :=
  match j with
  | .obj fields =>
    match (fields.find? (fun p => p.1 = successKey)).map Prod.snd with
    | some (.bool b) =>
      some { success := b
             message := ((fields.find? (fun p => p.1 = messageKey)).map Prod.snd).bind Json.asStr
             extra := (fields.filter (fun p => ¬ p.1 ∈ reservedApiKeys)).filterMap
               (fun p => (Json.asStr p.2).map (fun s => (p.1, s))) }
    | _ => none
  | _ => none

/-- JSON serialization of the persisted record, field for field as built
at src/register.js lines 150-157 / part_000 lines 114-121; the mnemonic
field is omitted when the wallet has none (JSON.stringify omits
undefined). -/
def recordToJson (r : PersistedRecord) : Json :=
  .obj (((addressKey, Json.str r.address) ::
    (privateKeyKey, Json.str r.privateKey) ::
    (match r.mnemonic with
     | some m => [(mnemonicKey, Json.str m)]
     | none => [])) ++
    [(referralCodeKey, Json.str r.referralCode),
     (registeredAtKey, Json.str r.registeredAt),
     (apiResponseKey, apiResponseToJson r.apiResponse)])

/-- Parse a persisted record back from its JSON form. -/
def parseRecord (j : Json) : Option PersistedRecord :=
  match (j.getField addressKey).bind Json.asStr,
      (j.getField privateKeyKey).bind Json.asStr,
      (j.getField referralCodeKey).bind Json.asStr,
      (j.getField registeredAtKey).bind Json.asStr,
      (j.getField apiResponseKey).bind parseApiResponse with
  | some address, some privateKey, some referralCode, some registeredAt, some api =>
    some { address := address
           privateKey := privateKey
           mnemonic := (j.getField mnemonicKey).bind Json.asStr
           referralCode := referralCode
           registeredAt := registeredAt
           apiResponse := api }
  | _, _, _, _, _ => none

/-- Whether a result is the success branch. -/
def exOk {ε α : Type} : Except ε α → Bool
  | .ok _ => true
  | .error _ => false

/-- Whether the transport outcome oracled for attempt `n` is an HTTP
success whose body has a truthy success flag — i.e. whether a part_000
registerWallet call at attempt `n` returns instead of throwing. -/
def attemptOkP0 (env : AttemptEnv) (n : Nat) : Bool :=
  match env.transport n with
  | .ok b => b.success
  | .err _ => false

/-- Whether attempt `n` of the register.js loop succeeds: the pre-attempt
connectivity check must pass and the call must return a success body. -/
def attemptOkRJ (env : AttemptEnv) (n : Nat) : Bool :=
  env.netOk n && attemptOkP0 env n

/-- The response body oracled for attempt `n`, when it is an HTTP success. -/
def okBodyAt (env : AttemptEnv) (n : Nat) : Option ApiResponse :=
  match env.transport n with
  | .ok b => some b
  | .err _ => none

/-- The attempt at which the register.js retry loop stops: the first
successful attempt, or maxRetries when none of the three succeeds. -/
def stopAtRJ (env : AttemptEnv) : Nat :=
  if attemptOkRJ env 1 then 1 else if attemptOkRJ env 2 then 2 else CONFIG.maxRetries

/-- The attempt at which the part_000 recursive driver stops. -/
def stopAtP0 (env : AttemptEnv) : Nat :=
  if attemptOkP0 env 1 then 1 else if attemptOkP0 env 2 then 2 else CONFIG.maxRetries

/-- The success body of attempt `n` (meaningful when the attempt is an
HTTP success). -/
def theBody (env : AttemptEnv) (n : Nat) : ApiResponse :=
  (okBodyAt env n).getD { success := false, message := none, extra := [] }

/-- Mnemonic phrase of the sample wallet. -/
def mnemonicWords : String := "alpha beta gamma"

/-- Concrete sample wallet used in witnesses and counterexamples. -/
def w0 : Wallet where
  address := "0xAAA0123"
  privateKey := "0xpk0secret"
  mnemonic := some mnemonicWords

/-- Concrete signing capability used in witnesses: tags the private key
and message (injective in the message for a fixed key). -/
def sign0 (pk msg : String) : String :=
  "sig:" ++ pk ++ ":" ++ msg

/-- Messages and opaque fields of the sample response bodies. -/
def okMsg : String := "registered"

def rejMsg : String := "address already registered"

def userIdKey : String := "userId"

def userIdVal : String := "u-77"

/-- Concrete success body. -/
def okBody : ApiResponse where
  success := true
  message := some okMsg
  extra := [(userIdKey, userIdVal)]

/-- Concrete rejection body (HTTP success, success flag false). -/
def rejBody : ApiResponse where
  success := false
  message := some rejMsg
  extra := []

/-- Concrete DNS-failure transport error as axios raises it. -/
def dnsErr : JsError where
  message := "getaddrinfo ENOTFOUND api.synthelix.io"
  code := some enotfoundCode
  hostname := some apiHostname

/-- Environment whose every attempt is rejected by the server. -/
def envRej : AttemptEnv where
  netOk := fun _ => true
  transport := fun _ => TransportResult.ok rejBody
  clock := fun n => "2025-01-01T00:00:0" ++ Nat.repr n ++ ".000Z"

/-- Environment whose first attempt hits a connectivity failure and whose
second attempt succeeds. -/
def envFailover : AttemptEnv where
  netOk := fun _ => true
  transport := fun n => if n = 1 then TransportResult.err dnsErr else TransportResult.ok okBody
  clock := fun n => "2025-01-01T00:00:0" ++ Nat.repr n ++ ".000Z"

/-- Environment rejected twice, then succeeding at the third attempt. -/
def envRejRejOk : AttemptEnv where
  netOk := fun _ => true
  transport := fun n =>
    if n ≤ 2 then TransportResult.ok rejBody else TransportResult.ok okBody
  clock := fun n => "2025-01-01T00:00:0" ++ Nat.repr n ++ ".000Z"

/-- Environment whose every attempt succeeds. -/
def envOk : AttemptEnv where
  netOk := fun _ => true
  transport := fun _ => TransportResult.ok okBody
  clock := fun n => "2025-01-01T00:00:0" ++ Nat.repr n ++ ".000Z"

/-- Environment whose first connectivity check fails mid-run and whose
second attempt succeeds. -/
def envNetDown1 : AttemptEnv where
  netOk := fun n => ¬ n = 1
  transport := fun _ => TransportResult.ok okBody
  clock := fun n => "2025-01-01T00:00:0" ++ Nat.repr n ++ ".000Z"

/-- Referral code used in witnesses. -/
def refLit : String := "FRIEND-42"

/-- File name used in single-wallet witnesses. -/
def fn0 : String := "synthelix_wallets/wallet_test.json"

/-- Timestamp used in witnesses. -/
def nowLit : String := "2025-01-01T00:00:00.000Z"

/-! ## Helper lemmas: decimal rendering and file names -/

theorem digitChar_inj_lt : ∀ a < 10, ∀ b < 10, Nat.digitChar a = Nat.digitChar b → a = b := by
  decide

theorem digitChar_isDigit : ∀ a < 10, (Nat.digitChar a).isDigit = true := by
  decide

theorem map_digitChar_inj : ∀ l1 l2 : List Nat, (∀ x ∈ l1, x < 10) → (∀ x ∈ l2, x < 10) →
    l1.map Nat.digitChar = l2.map Nat.digitChar → l1 = l2 := by
  intro l1
  induction l1 with
  | nil =>
    intro l2 _ _ h
    cases l2 with
    | nil => rfl
    | cons b bs => simp at h
  | cons a as ih =>
    intro l2 h1 h2 h
    cases l2 with
    | nil => simp at h
    | cons b bs =>
      simp only [List.map_cons, List.cons.injEq] at h
      have ha : a = b :=
        digitChar_inj_lt a (h1 a (by simp)) b (h2 b (by simp)) h.1
      have := ih bs (fun x hx => h1 x (by simp [hx])) (fun x hx => h2 x (by simp [hx])) h.2
      simp [ha, this]

theorem toDigitsCore_eq_digits :
    ∀ fuel n ds, n ≠ 0 → n < fuel →
      Nat.toDigitsCore 10 fuel n ds = ((Nat.digits 10 n).map Nat.digitChar).reverse ++ ds := by
  intro fuel
  induction fuel with
  | zero => omega
  | succ f ih =>
    intro n ds hn hlt
    rw [Nat.toDigitsCore]
    have hd : Nat.digits 10 n = n % 10 :: Nat.digits 10 (n / 10) :=
      Nat.digits_def' (by omega) (by omega)
    by_cases h10 : n / 10 = 0
    · simp [h10, hd]
    · rw [if_neg h10]
      have hlt' : n / 10 < f := by
        have : n / 10 < n := Nat.div_lt_self (by omega) (by omega)
        omega
      rw [ih (n / 10) _ h10 hlt', hd]
      simp

theorem repr_eq_digits (n : Nat) (hn : n ≠ 0) :
    Nat.repr n = (((Nat.digits 10 n).map Nat.digitChar).reverse).asString := by
  show (Nat.toDigits 10 n).asString = _
  rw [Nat.toDigits, toDigitsCore_eq_digits (n + 1) n [] hn (by omega)]
  simp

theorem repr_data (n : Nat) (hn : n ≠ 0) :
    (Nat.repr n).data = ((Nat.digits 10 n).map Nat.digitChar).reverse := by
  rw [repr_eq_digits n hn]
  simp [List.asString]

theorem repr_eq_zero_imp (m : Nat) (h : Nat.repr m = Nat.repr 0) : m = 0 := by
  by_contra hm
  have hd := congrArg String.data h
  rw [repr_data m hm] at hd
  have h0 : (Nat.repr 0).data = ['0'] := by decide
  rw [h0] at hd
  have hmap : (Nat.digits 10 m).map Nat.digitChar = ['0'] := by
    have := congrArg List.reverse hd
    simpa using this
  rcases hdig : Nat.digits 10 m with _ | ⟨d, ds⟩
  · exact (Nat.digits_ne_nil_iff_ne_zero.mpr hm) hdig
  · rw [hdig] at hmap
    simp only [List.map_cons, List.cons.injEq] at hmap
    obtain ⟨hc, hds⟩ := hmap
    have hdsnil : ds = [] := by simpa using hds
    have hd10 : d < 10 := Nat.digits_lt_base (by omega) (by rw [hdig]; simp)
    have hd0 : d = 0 := digitChar_inj_lt d hd10 0 (by omega) (by rw [hc]; rfl)
    have hof := Nat.ofDigits_digits 10 m
    rw [hdig, hdsnil, hd0] at hof
    simp [Nat.ofDigits] at hof
    exact hm hof.symm

theorem repr_injective : Function.Injective Nat.repr := by
  intro m n h
  by_cases hm : m = 0
  · subst hm
    exact (repr_eq_zero_imp n h.symm).symm
  · by_cases hn : n = 0
    · subst hn
      exact repr_eq_zero_imp m h
    · have hd := congrArg String.data h
      rw [repr_data m hm, repr_data n hn] at hd
      have hrev := List.reverse_injective hd
      have hdig := map_digitChar_inj _ _
        (fun x hx => Nat.digits_lt_base (by omega) hx)
        (fun x hx => Nat.digits_lt_base (by omega) hx) hrev
      have h1 := Nat.ofDigits_digits 10 m
      have h2 := Nat.ofDigits_digits 10 n
      rw [hdig] at h1
      omega

theorem repr_data_isDigit (n : Nat) : ∀ c ∈ (Nat.repr n).data, c.isDigit = true := by
  by_cases hn : n = 0
  · subst hn
    intro c hc
    have h0 : (Nat.repr 0).data = ['0'] := by decide
    rw [h0] at hc
    simp at hc
    subst hc
    decide
  · intro c hc
    rw [repr_data n hn] at hc
    simp only [List.mem_reverse, List.mem_map] at hc
    obtain ⟨d, hd, rfl⟩ := hc
    exact digitChar_isDigit d (Nat.digits_lt_base (by omega) hd)

theorem digits_sep_split {c : Char} (hc : c.isDigit = false) :
    ∀ d1 d2 r1 r2 : List Char, (∀ x ∈ d1, x.isDigit = true) → (∀ x ∈ d2, x.isDigit = true) →
    d1 ++ c :: r1 = d2 ++ c :: r2 → d1 = d2 ∧ r1 = r2 := by
  intro d1
  induction d1 with
  | nil =>
    intro d2 r1 r2 _ h2 h
    cases d2 with
    | nil => simpa using h
    | cons b bs =>
      simp only [List.nil_append, List.cons_append, List.cons.injEq] at h
      have : b.isDigit = true := h2 b (by simp)
      rw [← h.1] at this
      rw [hc] at this
      exact absurd this (by simp)
  | cons a as ih =>
    intro d2 r1 r2 h1 h2 h
    cases d2 with
    | nil =>
      simp only [List.cons_append, List.nil_append, List.cons.injEq] at h
      have : a.isDigit = true := h1 a (by simp)
      rw [h.1] at this
      rw [hc] at this
      exact absurd this (by simp)
    | cons b bs =>
      simp only [List.cons_append, List.cons.injEq] at h
      obtain ⟨hab, htl⟩ := h
      obtain ⟨hd, hr⟩ := ih bs r1 r2 (fun x hx => h1 x (by simp [hx]))
        (fun x hx => h2 x (by simp [hx])) htl
      exact ⟨by simp [hab, hd], hr⟩


theorem string_data_inj {s t : String} (h : s.data = t.data) : s = t := by
  cases s
  cases t
  exact congrArg String.mk h

theorem fileNameP0_inj {i j : Nat} (h : fileNameP0 i = fileNameP0 j) : i = j := by
  have hd := congrArg String.data h
  simp only [fileNameP0, String.data_append, List.append_assoc] at hd
  have h1 := List.append_cancel_left hd
  have h2 := List.append_cancel_left h1
  have h3 := List.append_cancel_right h2
  exact repr_injective (string_data_inj h3)

theorem fileNameRJ_inj {i j total t u : Nat}
    (h : fileNameRJ i total t = fileNameRJ j total u) : i = j := by
  have hd := congrArg String.data h
  simp only [fileNameRJ, String.data_append, List.append_assoc] at hd
  have h1 := List.append_cancel_left hd
  have h2 := List.append_cancel_left h1
  simp only [List.cons_append] at h2
  have hsep := digits_sep_split (c := '_') (by decide) _ _ _ _
    (repr_data_isDigit i) (repr_data_isDigit j) h2
  exact repr_injective (string_data_inj hsep.1)

/-! ## Helper lemmas: the two registration clients and retry drivers -/

theorem registerWalletRJ_trace (sign : String → String → String) (w : Wallet)
    (ref : Option String) (now : String) (outcome : TransportResult) :
    (registerWalletRJ sign w ref now outcome).2 =
      [Event.httpPost (mkRequest sign w ref now)] := by
  cases outcome with
  | ok body =>
    by_cases hb : body.success = false <;> simp [registerWalletRJ, hb]
  | err e =>
    by_cases he : e.code = some enotfoundCode <;> simp [registerWalletRJ, he]

theorem registerWalletP0_trace (sign : String → String → String) (w : Wallet)
    (ref : Option String) (now : String) (outcome : TransportResult) :
    (registerWalletP0 sign w ref now outcome).2 =
      [Event.httpPost (mkRequest sign w ref now)] := by
  cases outcome with
  | ok body =>
    by_cases hb : body.success = false <;> simp [registerWalletP0, hb]
  | err e => simp [registerWalletP0]

theorem registerWalletRJ_ok_iff (sign : String → String → String) (w : Wallet)
    (ref : Option String) (now : String) (outcome : TransportResult)
    (rec : PersistedRecord) :
    (registerWalletRJ sign w ref now outcome).1 = .ok rec ↔
      ∃ body, outcome = .ok body ∧ body.success = true ∧ rec = mkRecord w ref now body := by
  cases outcome with
  | ok body =>
    by_cases hb : body.success = false
    · simp [registerWalletRJ, hb]
    · simp only [Bool.not_eq_false] at hb
      simp [registerWalletRJ, hb]
      exact eq_comm
  | err e =>
    by_cases he : e.code = some enotfoundCode <;> simp [registerWalletRJ, he]

theorem registerWalletP0_ok_iff (sign : String → String → String) (w : Wallet)
    (ref : Option String) (now : String) (outcome : TransportResult)
    (rec : PersistedRecord) :
    (registerWalletP0 sign w ref now outcome).1 = .ok rec ↔
      ∃ body, outcome = .ok body ∧ body.success = true ∧ rec = mkRecord w ref now body := by
  cases outcome with
  | ok body =>
    by_cases hb : body.success = false
    · simp [registerWalletP0, hb]
    · simp only [Bool.not_eq_false] at hb
      simp [registerWalletP0, hb]
      exact eq_comm
  | err e => simp [registerWalletP0]

theorem registerWalletRJ_isOk (sign : String → String → String) (w : Wallet)
    (ref : Option String) (now : String) (outcome : TransportResult) :
    exOk (registerWalletRJ sign w ref now outcome).1 =
      (match outcome with
       | .ok body => body.success
       | .err _ => false) := by
  cases outcome with
  | ok body =>
    by_cases hb : body.success = false
    · simp [registerWalletRJ, hb, exOk]
    · simp only [Bool.not_eq_false] at hb
      simp [registerWalletRJ, hb, exOk]
  | err e =>
    by_cases he : e.code = some enotfoundCode <;> simp [registerWalletRJ, he, exOk]

theorem registerWalletP0_isOk (sign : String → String → String) (w : Wallet)
    (ref : Option String) (now : String) (outcome : TransportResult) :
    exOk (registerWalletP0 sign w ref now outcome).1 =
      (match outcome with
       | .ok body => body.success
       | .err _ => false) := by
  cases outcome with
  | ok body =>
    by_cases hb : body.success = false
    · simp [registerWalletP0, hb, exOk]
    · simp only [Bool.not_eq_false] at hb
      simp [registerWalletP0, hb, exOk]
  | err e => simp [registerWalletP0, exOk]

theorem attemptRJ_trace (sign : String → String → String) (w : Wallet)
    (ref : Option String) (env : AttemptEnv) (n : Nat) :
    (attemptRJ sign w ref env n).2 =
      if env.netOk n then
        [Event.netCheckEv true, Event.httpPost (mkRequest sign w ref (env.clock n))]
      else [Event.netCheckEv false] := by
  by_cases h : env.netOk n <;> simp [attemptRJ, h, registerWalletRJ_trace]

theorem attemptRJ_ok_iff (sign : String → String → String) (w : Wallet)
    (ref : Option String) (env : AttemptEnv) (n : Nat) (rec : PersistedRecord) :
    (attemptRJ sign w ref env n).1 = .ok rec ↔
      env.netOk n = true ∧ ∃ body, env.transport n = .ok body ∧ body.success = true ∧
        rec = mkRecord w ref (env.clock n) body := by
  by_cases h : env.netOk n
  · simp [attemptRJ, h, registerWalletRJ_ok_iff]
  · simp [attemptRJ, h]

theorem attemptRJ_isOk (sign : String → String → String) (w : Wallet)
    (ref : Option String) (env : AttemptEnv) (n : Nat) :
    exOk (attemptRJ sign w ref env n).1 = attemptOkRJ env n := by
  by_cases h : env.netOk n
  · simp [attemptRJ, h, registerWalletRJ_isOk, attemptOkRJ, attemptOkP0]
  · simp [attemptRJ, h, exOk, attemptOkRJ]

theorem loopRJ_done (sign : String → String → String) (w : Wallet) (fn : String)
    (ref : Option String) (env : AttemptEnv) (a : Nat) :
    loopRJ sign w fn ref env a true = (a, true, []) := by
  rw [loopRJ]
  simp

theorem loopRJ_stop (sign : String → String → String) (w : Wallet) (fn : String)
    (ref : Option String) (env : AttemptEnv) (a : Nat) (reg : Bool)
    (h : CONFIG.maxRetries ≤ a) :
    loopRJ sign w fn ref env a reg = (a, reg, []) := by
  rw [loopRJ]
  simp
  omega

theorem loopRJ_step_ok (sign : String → String → String) (w : Wallet) (fn : String)
    (ref : Option String) (env : AttemptEnv) (a : Nat) (rec : PersistedRecord)
    (h : a < CONFIG.maxRetries)
    (hr : (attemptRJ sign w ref env (a + 1)).1 = .ok rec) :
    loopRJ sign w fn ref env a false =
      (a + 1, true, (attemptRJ sign w ref env (a + 1)).2 ++ [Event.writeFile fn rec]) := by
  rw [loopRJ]
  simp [h, hr, loopRJ_done]

theorem loopRJ_step_err (sign : String → String → String) (w : Wallet) (fn : String)
    (ref : Option String) (env : AttemptEnv) (a : Nat) (e : JsError)
    (h : a < CONFIG.maxRetries)
    (hr : (attemptRJ sign w ref env (a + 1)).1 = .error e) :
    loopRJ sign w fn ref env a false =
      ((loopRJ sign w fn ref env (a + 1) false).1,
       (loopRJ sign w fn ref env (a + 1) false).2.1,
       ((attemptRJ sign w ref env (a + 1)).2 ++
         (if a + 1 < CONFIG.maxRetries then [Event.delayMs CONFIG.retryDelay] else [])) ++
         (loopRJ sign w fn ref env (a + 1) false).2.2) := by
  rw [loopRJ]
  simp [h, hr]

theorem p0_step_ok (sign : String → String → String) (w : Wallet) (fn : String)
    (ref : Option String) (env : AttemptEnv) (a : Nat) (rec : PersistedRecord)
    (hr : (registerWalletP0 sign w ref (env.clock a) (env.transport a)).1 = .ok rec) :
    registerWithRetryP0 sign w fn ref env a =
      (true, (registerWalletP0 sign w ref (env.clock a) (env.transport a)).2 ++
        [Event.writeFile fn rec]) := by
  rw [registerWithRetryP0]
  simp [hr]

theorem p0_step_err_lt (sign : String → String → String) (w : Wallet) (fn : String)
    (ref : Option String) (env : AttemptEnv) (a : Nat) (e : JsError)
    (h : a < CONFIG.maxRetries)
    (hr : (registerWalletP0 sign w ref (env.clock a) (env.transport a)).1 = .error e) :
    registerWithRetryP0 sign w fn ref env a =
      ((registerWithRetryP0 sign w fn ref env (a + 1)).1,
       ((registerWalletP0 sign w ref (env.clock a) (env.transport a)).2 ++
         [Event.delayMs CONFIG.retryDelay]) ++
         (registerWithRetryP0 sign w fn ref env (a + 1)).2) := by
  rw [registerWithRetryP0]
  simp [hr, h]

theorem p0_step_err_last (sign : String → String → String) (w : Wallet) (fn : String)
    (ref : Option String) (env : AttemptEnv) (a : Nat) (e : JsError)
    (h : ¬ a < CONFIG.maxRetries)
    (hr : (registerWalletP0 sign w ref (env.clock a) (env.transport a)).1 = .error e) :
    registerWithRetryP0 sign w fn ref env a =
      (false, (registerWalletP0 sign w ref (env.clock a) (env.transport a)).2) := by
  rw [registerWithRetryP0]
  simp [hr, h]

theorem exOk_eq_false_iff {ε α : Type} (x : Except ε α) :
    exOk x = false ↔ ∃ e, x = .error e := by
  cases x <;> simp [exOk]

theorem attemptRJ_ok_of (sign : String → String → String) (w : Wallet)
    (ref : Option String) (env : AttemptEnv) (n : Nat)
    (hn : env.netOk n = true) (hok : attemptOkP0 env n = true) :
    ∃ body, env.transport n = .ok body ∧ body.success = true ∧
      (attemptRJ sign w ref env n).1 = .ok (mkRecord w ref (env.clock n) body) := by
  rcases ht : env.transport n with body | e
  · simp only [attemptOkP0, ht] at hok
    refine ⟨body, rfl, hok, ?_⟩
    rw [attemptRJ_ok_iff]
    exact ⟨hn, body, ht, hok, rfl⟩
  · simp [attemptOkP0, ht] at hok

theorem attemptRJ_err_of (sign : String → String → String) (w : Wallet)
    (ref : Option String) (env : AttemptEnv) (n : Nat)
    (hok : attemptOkRJ env n = false) :
    ∃ e, (attemptRJ sign w ref env n).1 = .error e := by
  rw [← exOk_eq_false_iff]
  rw [attemptRJ_isOk]
  exact hok

theorem p0_ok_of (sign : String → String → String) (w : Wallet)
    (ref : Option String) (env : AttemptEnv) (n : Nat)
    (hok : attemptOkP0 env n = true) :
    ∃ body, env.transport n = .ok body ∧ body.success = true ∧
      (registerWalletP0 sign w ref (env.clock n) (env.transport n)).1 =
        .ok (mkRecord w ref (env.clock n) body) := by
  rcases ht : env.transport n with body | e
  · simp only [attemptOkP0, ht] at hok
    refine ⟨body, rfl, hok, ?_⟩
    rw [registerWalletP0_ok_iff]
    exact ⟨body, rfl, hok, rfl⟩
  · simp [attemptOkP0, ht] at hok

theorem p0_err_of (sign : String → String → String) (w : Wallet)
    (ref : Option String) (env : AttemptEnv) (n : Nat)
    (hok : attemptOkP0 env n = false) :
    ∃ e, (registerWalletP0 sign w ref (env.clock n) (env.transport n)).1 = .error e := by
  rw [← exOk_eq_false_iff]
  rw [registerWalletP0_isOk]
  rcases ht : env.transport n with body | e
  · simp only [attemptOkP0, ht] at hok
    simpa using hok
  · simp

theorem postsOf_append (t1 t2 : List Event) :
    postsOf (t1 ++ t2) = postsOf t1 ++ postsOf t2 := by
  simp [postsOf, List.filterMap_append]

theorem delaysOf_append (t1 t2 : List Event) :
    delaysOf (t1 ++ t2) = delaysOf t1 ++ delaysOf t2 := by
  simp [delaysOf, List.filterMap_append]

theorem writesOf_append (t1 t2 : List Event) :
    writesOf (t1 ++ t2) = writesOf t1 ++ writesOf t2 := by
  simp [writesOf, List.filterMap_append]

theorem mkMessage_inj_timestamp {a t1 t2 : String}
    (h : mkMessage a t1 = mkMessage a t2) : t1 = t2 := by
  have hd := congrArg String.data h
  simp only [mkMessage, String.data_append, List.append_assoc] at hd
  have h1 := List.append_cancel_left hd
  have h2 := List.append_cancel_left h1
  have h3 := List.append_cancel_left h2
  exact string_data_inj h3

theorem attemptRJ_writesOf (sign : String → String → String) (w : Wallet)
    (ref : Option String) (env : AttemptEnv) (n : Nat) :
    writesOf (attemptRJ sign w ref env n).2 = [] := by
  rw [attemptRJ_trace]
  by_cases h : env.netOk n <;> simp [h, writesOf]

theorem attemptRJ_delaysOf (sign : String → String → String) (w : Wallet)
    (ref : Option String) (env : AttemptEnv) (n : Nat) :
    delaysOf (attemptRJ sign w ref env n).2 = [] := by
  rw [attemptRJ_trace]
  by_cases h : env.netOk n <;> simp [h, delaysOf]

theorem attemptRJ_postsOf (sign : String → String → String) (w : Wallet)
    (ref : Option String) (env : AttemptEnv) (n : Nat) :
    postsOf (attemptRJ sign w ref env n).2 =
      if env.netOk n then [mkRequest sign w ref (env.clock n)] else [] := by
  rw [attemptRJ_trace]
  by_cases h : env.netOk n <;> simp [h, postsOf]

theorem registerWalletP0_writesOf (sign : String → String → String) (w : Wallet)
    (ref : Option String) (now : String) (outcome : TransportResult) :
    writesOf (registerWalletP0 sign w ref now outcome).2 = [] := by
  rw [registerWalletP0_trace]
  simp [writesOf]

theorem registerWalletP0_delaysOf (sign : String → String → String) (w : Wallet)
    (ref : Option String) (now : String) (outcome : TransportResult) :
    delaysOf (registerWalletP0 sign w ref now outcome).2 = [] := by
  rw [registerWalletP0_trace]
  simp [delaysOf]

theorem registerWalletP0_postsOf (sign : String → String → String) (w : Wallet)
    (ref : Option String) (now : String) (outcome : TransportResult) :
    postsOf (registerWalletP0 sign w ref now outcome).2 = [mkRequest sign w ref now] := by
  rw [registerWalletP0_trace]
  simp [postsOf]

/-! ## Claim theorems -/

/-- C4: every HTTP response is classified by the body's success flag: a
truthy flag yields the success record carrying the full response payload,
a falsy flag yields a rejection error carrying the server's message (or
the default when absent), with no connectivity code and no further HTTP
attempt (no failover); these are the only two outcomes. Holds for both
variants. -/
theorem c4_success_flag_classification (sign : String → String → String)
    (w : Wallet) (ref : Option String) (now : String) (body : ApiResponse) :
    (body.success = true →
      (registerWalletRJ sign w ref now (.ok body)).1 = .ok (mkRecord w ref now body) ∧
      (registerWalletP0 sign w ref now (.ok body)).1 = .ok (mkRecord w ref now body) ∧
      (mkRecord w ref now body).apiResponse = body) ∧
    (body.success = false →
      (registerWalletRJ sign w ref now (.ok body)).1 =
        .error { message := jsOrStr body.message registrationFailedMsg
                 code := none, hostname := none } ∧
      (registerWalletP0 sign w ref now (.ok body)).1 =
        .error { message := jsOrStr body.message registrationFailedMsg
                 code := none, hostname := none }) ∧
    countPosts (registerWalletRJ sign w ref now (.ok body)).2 = 1 ∧
    countPosts (registerWalletP0 sign w ref now (.ok body)).2 = 1 := by
  refine ⟨fun hs => ?_, fun hs => ?_, ?_, ?_⟩
  · simp [registerWalletRJ, registerWalletP0, hs, mkRecord]
  · simp [registerWalletRJ, registerWalletP0, hs]
  · simp [registerWalletRJ_trace, countPosts, postsOf]
  · simp [registerWalletP0_trace, countPosts, postsOf]

/-- C4 witness: instantiation at a success body and a rejection body. -/
theorem c4_success_flag_classification_witness :
    (registerWalletRJ sign0 w0 (some refLit) nowLit (.ok okBody)).1 =
      .ok (mkRecord w0 (some refLit) nowLit okBody) ∧
    (registerWalletRJ sign0 w0 (some refLit) nowLit (.ok rejBody)).1 =
      .error { message := jsOrStr rejBody.message registrationFailedMsg
               code := none, hostname := none } := by
  constructor
  · exact ((c4_success_flag_classification sign0 w0 (some refLit) nowLit okBody).1 rfl).1
  · exact ((c4_success_flag_classification sign0 w0 (some refLit) nowLit rejBody).2.1 rfl).1

/-- C1 counterexample: with the first transport outcome a DNS connectivity
failure and the second a success, the registration call of the first retry
iteration performs exactly one HTTP attempt and fails — the client does
not fail over and retry within the call, so the wallet does not reach
success after 2 HTTP attempts within that iteration, contradicting the
claim. -/
theorem c1_counterexample :
    countPosts (attemptRJ sign0 w0 (some refLit) envFailover 1).2 = 1 ∧
    exOk (attemptRJ sign0 w0 (some refLit) envFailover 1).1 = false ∧
    ¬ (countPosts (attemptRJ sign0 w0 (some refLit) envFailover 1).2 = 2 ∧
       exOk (attemptRJ sign0 w0 (some refLit) envFailover 1).1 = true) := by
  refine ⟨?_, ?_, ?_⟩ <;>
    simp [attemptRJ, envFailover, registerWalletRJ, dnsErr, countPosts, postsOf, exOk,
      enotfoundCode]

/-- C1 amended: registerWallet performs exactly one HTTP submission per
call; a transport-level connectivity failure propagates to the retry
orchestrator with no failover (the configuration has a single endpoint),
and a wallet whose first attempt hits a connectivity failure and whose
second attempt succeeds reaches success after exactly 2 HTTP attempts
spread over two retry iterations, with one fixed delay between them. -/
theorem c1_single_post_no_failover (sign : String → String → String)
    (w : Wallet) (fn : String) (ref : Option String) (env : AttemptEnv)
    (e : JsError) (hn1 : env.netOk 1 = true) (hn2 : env.netOk 2 = true)
    (ht1 : env.transport 1 = .err e) (hok2 : attemptOkP0 env 2 = true) :
    countPosts (registerWalletRJ sign w ref (env.clock 1) (env.transport 1)).2 = 1 ∧
    exOk (registerWalletRJ sign w ref (env.clock 1) (env.transport 1)).1 = false ∧
    (loopRJ sign w fn ref env 0 false).1 = 2 ∧
    (loopRJ sign w fn ref env 0 false).2.1 = true ∧
    countPosts (loopRJ sign w fn ref env 0 false).2.2 = 2 ∧
    delaysOf (loopRJ sign w fn ref env 0 false).2.2 = [CONFIG.retryDelay] := by
  have hok1 : attemptOkRJ env 1 = false := by
    simp [attemptOkRJ, attemptOkP0, ht1]
  obtain ⟨e1, he1⟩ := attemptRJ_err_of sign w ref env 1 hok1
  obtain ⟨body2, hb2, hs2, hrec2⟩ := attemptRJ_ok_of sign w ref env 2 hn2 hok2
  have h01 : (0 : Nat) < CONFIG.maxRetries := by
    simp [CONFIG]
  have h12 : (1 : Nat) < CONFIG.maxRetries := by
    simp [CONFIG]
  refine ⟨?_, ?_, ?_, ?_, ?_, ?_⟩
  · simp [registerWalletRJ_trace, countPosts, postsOf]
  · rw [registerWalletRJ_isOk, ht1]
  all_goals
    rw [loopRJ_step_err sign w fn ref env 0 e1 h01 he1,
      loopRJ_step_ok sign w fn ref env 1 _ h12 hrec2]
  all_goals
    simp [attemptRJ_trace, hn1, hn2, countPosts, postsOf, delaysOf, List.filterMap_append,
      CONFIG]

/-- C1 amended witness: concrete run with a DNS failure then a success. -/
theorem c1_single_post_no_failover_witness :
    (loopRJ sign0 w0 fn0 (some refLit) envFailover 0 false).2.1 = true ∧
    countPosts (loopRJ sign0 w0 fn0 (some refLit) envFailover 0 false).2.2 = 2 := by
  have h := c1_single_post_no_failover sign0 w0 fn0 (some refLit) envFailover dnsErr
    rfl rfl rfl rfl
  exact ⟨h.2.2.2.1, h.2.2.2.2.1⟩

/-- C8: every attempt builds its request fresh: the request posted at
attempt n carries the clock reading taken at attempt n as its timestamp,
the message deterministically encodes the wallet address and that
timestamp, and the signature signs that message with the wallet's private
key; attempts whose clock readings differ share neither timestamp nor
message, and (for an injective signing function) not the signature either.
Holds for both variants. -/
theorem c8_fresh_request_per_attempt (sign : String → String → String)
    (w : Wallet) (ref : Option String) (env : AttemptEnv) (n m : Nat)
    (hn : env.netOk n = true) :
    postsOf (attemptRJ sign w ref env n).2 = [mkRequest sign w ref (env.clock n)] ∧
    postsOf (registerWalletP0 sign w ref (env.clock n) (env.transport n)).2 =
      [mkRequest sign w ref (env.clock n)] ∧
    (mkRequest sign w ref (env.clock n)).timestamp = env.clock n ∧
    (mkRequest sign w ref (env.clock n)).message = mkMessage w.address (env.clock n) ∧
    (mkRequest sign w ref (env.clock n)).signature =
      sign w.privateKey (mkMessage w.address (env.clock n)) ∧
    (env.clock n ≠ env.clock m →
      (mkRequest sign w ref (env.clock n)).timestamp ≠
        (mkRequest sign w ref (env.clock m)).timestamp ∧
      (mkRequest sign w ref (env.clock n)).message ≠
        (mkRequest sign w ref (env.clock m)).message) ∧
    (Function.Injective (sign w.privateKey) → env.clock n ≠ env.clock m →
      (mkRequest sign w ref (env.clock n)).signature ≠
        (mkRequest sign w ref (env.clock m)).signature) := by
  refine ⟨?_, ?_, rfl, rfl, rfl, fun hne => ⟨hne, fun hmsg => ?_⟩, fun hinj hne hsig => ?_⟩
  · rw [attemptRJ_postsOf, hn]
    simp
  · exact registerWalletP0_postsOf sign w ref (env.clock n) (env.transport n)
  · exact hne (mkMessage_inj_timestamp hmsg)
  · exact hne (mkMessage_inj_timestamp (hinj hsig))

/-- C8 witness: two attempts with distinct clock readings under the
concrete injective signing function. -/
theorem c8_fresh_request_per_attempt_witness :
    (mkRequest sign0 w0 (some refLit) (envOk.clock 1)).timestamp ≠
      (mkRequest sign0 w0 (some refLit) (envOk.clock 2)).timestamp ∧
    (mkRequest sign0 w0 (some refLit) (envOk.clock 1)).signature ≠
      (mkRequest sign0 w0 (some refLit) (envOk.clock 2)).signature := by
  have hinj : Function.Injective (sign0 w0.privateKey) := by
    intro x y hxy
    simp only [sign0] at hxy
    have hd := congrArg String.data hxy
    simp only [String.data_append, List.append_assoc] at hd
    have h1 := List.append_cancel_left hd
    have h2 := List.append_cancel_left h1
    have h3 := List.append_cancel_left h2
    exact string_data_inj h3
  have hne : envOk.clock 1 ≠ envOk.clock 2 := by
    decide
  have h := c8_fresh_request_per_attempt sign0 w0 (some refLit) envOk 1 2 rfl
  exact ⟨(h.2.2.2.2.2.1 hne).1, h.2.2.2.2.2.2 hinj hne⟩

/-- C2: endpoint selection tries the candidates in list order and returns
the first reachable one (every earlier candidate is unreachable), fails
with NoEndpointAvailable (modelled as `none`) exactly when every candidate
is unreachable, and in the source's single-endpoint instantiation this is
the startup connectivity check: when it fails, main exits with code 1
before processing any wallet — the one fatal, non-retried error. -/
theorem c2_select_first_reachable (probe : String → Bool) :
    (∀ es e, selectWorkingList probe es = some e →
      probe e = true ∧ ∃ pre suf, es = pre ++ e :: suf ∧ ∀ x ∈ pre, probe x = false) ∧
    (∀ es, selectWorkingList probe es = none ↔ ∀ e ∈ es, probe e = false) ∧
    (selectWorking probe = none ↔ probe CONFIG.synthelixApi = false) ∧
    (∀ (sign : String → String → String) (count : Nat) (refS : String)
      (wallets : Nat → Wallet) (nowMs : Nat → Nat) (envs : Nat → AttemptEnv)
      (dnsOk googleOk : Bool),
      selectWorking (fun _ => checkNetworkConnection dnsOk googleOk) = none →
      mainRJ sign (checkNetworkConnection dnsOk googleOk) count refS wallets nowMs envs =
        (RunOutcome.fatalExit 1, [], [])) := by
  refine ⟨?_, ?_, ?_, ?_⟩
  · intro es
    induction es with
    | nil => intro e h; simp [selectWorkingList] at h
    | cons a as ih =>
      intro e h
      by_cases hp : probe a
      · simp [selectWorkingList, hp] at h
        subst h
        exact ⟨hp, [], as, rfl, by simp⟩
      · simp [selectWorkingList, hp] at h
        obtain ⟨hpe, pre, suf, hes, hpre⟩ := ih e h
        refine ⟨hpe, a :: pre, suf, by simp [hes], ?_⟩
        intro x hx
        rcases List.mem_cons.mp hx with hx | hx
        · subst hx
          simpa using hp
        · exact hpre x hx
  · intro es
    induction es with
    | nil => simp [selectWorkingList]
    | cons a as ih =>
      by_cases hp : probe a <;> simp [selectWorkingList, hp, ih]
  · simp [selectWorking, selectWorkingList, candidateEndpoints]
  · intro sign count refS wallets nowMs envs dnsOk googleOk hnone
    have hfail : checkNetworkConnection dnsOk googleOk = false := by
      by_contra hne
      simp [selectWorking, selectWorkingList, candidateEndpoints, hne] at hnone
    rw [mainRJ, if_pos hfail]

/-- C2 witness: a probe under which the single candidate is unreachable;
selection fails and main exits fatally with no wallet processed. -/
theorem c2_select_first_reachable_witness :
    selectWorking (fun _ => checkNetworkConnection false true) = none ∧
    mainRJ sign0 (checkNetworkConnection false true) 5 refLit (fun _ => w0)
      (fun _ => 0) (fun _ => envOk) = (RunOutcome.fatalExit 1, [], []) := by
  have hnone : selectWorking (fun _ => checkNetworkConnection false true) = none := by
    simp [selectWorking, selectWorkingList, candidateEndpoints, checkNetworkConnection]
  exact ⟨hnone, (c2_select_first_reachable (fun _ => checkNetworkConnection false true)).2.2.2
    sign0 5 refLit (fun _ => w0) (fun _ => 0) (fun _ => envOk) false true hnone⟩

/-- C10: in src/register.js every registration attempt is preceded by a
connectivity check (an HTTP POST appears in an attempt's trace only after
a passing check); when the check fails mid-run the attempt fails with
Network unavailable without touching the network, consumes one of the
maxRetries attempts and is retried after the fixed delay, and the run
never terminates because of it — only the single startup check (before any
wallet) exits the process, with code 1. -/
theorem c10_connectivity_check_per_attempt (sign : String → String → String)
    (w : Wallet) (fn : String) (ref : Option String) (env : AttemptEnv) :
    (∀ n, (attemptRJ sign w ref env n).2 =
      if env.netOk n then
        [Event.netCheckEv true, Event.httpPost (mkRequest sign w ref (env.clock n))]
      else [Event.netCheckEv false]) ∧
    (∀ n, env.netOk n = false →
      (attemptRJ sign w ref env n).1 =
        .error { message := networkUnavailableMsg, code := none, hostname := none } ∧
      countPosts (attemptRJ sign w ref env n).2 = 0) ∧
    (env.netOk 1 = false →
      (loopRJ sign w fn ref env 0 false).2.2 =
        Event.netCheckEv false :: Event.delayMs CONFIG.retryDelay ::
          (loopRJ sign w fn ref env 1 false).2.2 ∧
      (loopRJ sign w fn ref env 0 false).1 = (loopRJ sign w fn ref env 1 false).1 ∧
      (loopRJ sign w fn ref env 0 false).2.1 = (loopRJ sign w fn ref env 1 false).2.1) ∧
    (∀ (count : Nat) (refS : String) (wallets : Nat → Wallet) (nowMs : Nat → Nat)
      (envs : Nat → AttemptEnv),
      mainRJ sign false count refS wallets nowMs envs = (RunOutcome.fatalExit 1, [], [])) ∧
    (∀ (count : Nat) (refS : String) (wallets : Nat → Wallet) (nowMs : Nat → Nat)
      (envs : Nat → AttemptEnv),
      (mainRJ sign true count refS wallets nowMs envs).1 = RunOutcome.completed count) := by
  refine ⟨attemptRJ_trace sign w ref env, fun n hn => ⟨?_, ?_⟩, fun hn => ?_, ?_, ?_⟩
  · simp [attemptRJ, hn]
  · rw [countPosts, attemptRJ_postsOf, hn]
    simp
  · have he : (attemptRJ sign w ref env 1).1 =
        .error { message := networkUnavailableMsg, code := none, hostname := none } := by
      simp [attemptRJ, hn]
    have h01 : (0 : Nat) < CONFIG.maxRetries := by
      simp [CONFIG]
    rw [loopRJ_step_err sign w fn ref env 0 _ h01 he]
    rw [attemptRJ_trace]
    simp [hn, CONFIG]
  · intro count refS wallets nowMs envs
    rw [mainRJ]
    simp
  · intro count refS wallets nowMs envs
    rw [mainRJ]
    simp

/-- C10 witness: concrete environment whose first connectivity check fails
mid-run; the attempt consumes one retry and the run completes. -/
theorem c10_connectivity_check_per_attempt_witness :
    (attemptRJ sign0 w0 (some refLit) envNetDown1 1).1 =
      .error { message := networkUnavailableMsg, code := none, hostname := none } ∧
    (mainRJ sign0 true 2 refLit (fun _ => w0) (fun _ => 0) (fun _ => envNetDown1)).1 =
      RunOutcome.completed 2 := by
  have h := c10_connectivity_check_per_attempt sign0 w0 fn0 (some refLit) envNetDown1
  exact ⟨(h.2.1 1 (by decide)).1,
    h.2.2.2.2 2 refLit (fun _ => w0) (fun _ => 0) (fun _ => envNetDown1)⟩

/-- C3: a wallet whose registration calls are all rejected by the server
performs exactly maxRetries registration calls, ends unregistered
(Exhausted), writes no persisted record — in both variants — and the batch
continues: a bulk run in which every attempt of every wallet is rejected
still processes every requested wallet index and writes nothing. -/
theorem c3_exhaustion_after_max_attempts (sign : String → String → String)
    (w : Wallet) (fn : String) (ref : Option String) (env : AttemptEnv)
    (hnet : ∀ n, env.netOk n = true)
    (hrej : ∀ n, ∃ body, env.transport n = .ok body ∧ body.success = false) :
    (loopRJ sign w fn ref env 0 false).1 = CONFIG.maxRetries ∧
    (loopRJ sign w fn ref env 0 false).2.1 = false ∧
    countPosts (loopRJ sign w fn ref env 0 false).2.2 = CONFIG.maxRetries ∧
    writesOf (loopRJ sign w fn ref env 0 false).2.2 = [] ∧
    (registerWithRetryP0 sign w fn ref env 1).1 = false ∧
    countPosts (registerWithRetryP0 sign w fn ref env 1).2 = CONFIG.maxRetries ∧
    writesOf (registerWithRetryP0 sign w fn ref env 1).2 = [] ∧
    (∀ (count : Nat) (refS : String) (wallets : Nat → Wallet) (nowMs : Nat → Nat),
      ((mainRJ sign true count refS wallets nowMs (fun _ => env)).2.1).map Prod.fst =
        List.range' 1 count ∧
      writesOf (mainRJ sign true count refS wallets nowMs (fun _ => env)).2.2 = []) := by
  have hok : ∀ n, attemptOkRJ env n = false := by
    intro n
    obtain ⟨body, ht, hb⟩ := hrej n
    simp [attemptOkRJ, attemptOkP0, ht, hb]
  have hokp : ∀ n, attemptOkP0 env n = false := by
    intro n
    obtain ⟨body, ht, hb⟩ := hrej n
    simp [attemptOkP0, ht, hb]
  obtain ⟨e1, he1⟩ := attemptRJ_err_of sign w ref env 1 (hok 1)
  obtain ⟨e2, he2⟩ := attemptRJ_err_of sign w ref env 2 (hok 2)
  obtain ⟨e3, he3⟩ := attemptRJ_err_of sign w ref env 3 (hok 3)
  obtain ⟨f1, hf1⟩ := p0_err_of sign w ref env 1 (hokp 1)
  obtain ⟨f2, hf2⟩ := p0_err_of sign w ref env 2 (hokp 2)
  obtain ⟨f3, hf3⟩ := p0_err_of sign w ref env 3 (hokp 3)
  have hRJ : loopRJ sign w fn ref env 0 false = (3, false,
      ((attemptRJ sign w ref env 1).2 ++ [Event.delayMs CONFIG.retryDelay]) ++
      (((attemptRJ sign w ref env 2).2 ++ [Event.delayMs CONFIG.retryDelay]) ++
       (((attemptRJ sign w ref env 3).2 ++ []) ++ []))) := by
    rw [loopRJ_step_err sign w fn ref env 0 e1 (by simp [CONFIG]) he1]
    rw [loopRJ_step_err sign w fn ref env 1 e2 (by simp [CONFIG]) he2]
    rw [loopRJ_step_err sign w fn ref env 2 e3 (by simp [CONFIG]) he3]
    rw [loopRJ_stop sign w fn ref env 3 false (by simp [CONFIG])]
    simp [CONFIG]
  have hP0 : registerWithRetryP0 sign w fn ref env 1 = (false,
      ((registerWalletP0 sign w ref (env.clock 1) (env.transport 1)).2 ++
        [Event.delayMs CONFIG.retryDelay]) ++
      (((registerWalletP0 sign w ref (env.clock 2) (env.transport 2)).2 ++
        [Event.delayMs CONFIG.retryDelay]) ++
       (registerWalletP0 sign w ref (env.clock 3) (env.transport 3)).2)) := by
    rw [p0_step_err_lt sign w fn ref env 1 f1 (by simp [CONFIG]) hf1]
    rw [p0_step_err_lt sign w fn ref env 2 f2 (by simp [CONFIG]) hf2]
    rw [p0_step_err_last sign w fn ref env 3 f3 (by simp [CONFIG]) hf3]
  refine ⟨?_, ?_, ?_, ?_, ?_, ?_, ?_, ?_⟩
  · rw [hRJ]
    simp [CONFIG]
  · rw [hRJ]
  · rw [hRJ]
    simp only [countPosts, postsOf_append, attemptRJ_postsOf, hnet, if_true]
    simp [postsOf, CONFIG]
  · rw [hRJ]
    simp only [writesOf_append, attemptRJ_writesOf]
    simp [writesOf]
  · rw [hP0]
  · rw [hP0]
    simp only [countPosts, postsOf_append, registerWalletP0_postsOf]
    simp [postsOf, CONFIG]
  · rw [hP0]
    simp only [writesOf_append, registerWalletP0_writesOf]
    simp [writesOf]
  · intro count refS wallets nowMs
    have hwr : ∀ (w2 : Wallet) (fn2 : String) (ref2 : Option String),
        writesOf (loopRJ sign w2 fn2 ref2 env 0 false).2.2 = [] := by
      intro w2 fn2 ref2
      obtain ⟨g1, hg1⟩ := attemptRJ_err_of sign w2 ref2 env 1 (hok 1)
      obtain ⟨g2, hg2⟩ := attemptRJ_err_of sign w2 ref2 env 2 (hok 2)
      obtain ⟨g3, hg3⟩ := attemptRJ_err_of sign w2 ref2 env 3 (hok 3)
      rw [loopRJ_step_err sign w2 fn2 ref2 env 0 g1 (by simp [CONFIG]) hg1]
      rw [loopRJ_step_err sign w2 fn2 ref2 env 1 g2 (by simp [CONFIG]) hg2]
      rw [loopRJ_step_err sign w2 fn2 ref2 env 2 g3 (by simp [CONFIG]) hg3]
      rw [loopRJ_stop sign w2 fn2 ref2 env 3 false (by simp [CONFIG])]
      simp only [writesOf_append, attemptRJ_writesOf]
      simp [writesOf]
    rw [mainRJ]
    simp only [Bool.true_eq_false, if_false]
    constructor
    · generalize List.range' 1 count = idxs
      induction idxs with
      | nil => simp [bulkRunRJ]
      | cons i rest ih => simp [bulkRunRJ, ih]
    · generalize List.range' 1 count = idxs
      induction idxs with
      | nil => simp [bulkRunRJ, writesOf]
      | cons i rest ih =>
        simp only [bulkRunRJ, generateAndRegisterWalletRJ, writesOf_append, hwr, ih,
          List.nil_append]

/-- C3 witness: concrete all-rejecting environment. -/
theorem c3_exhaustion_after_max_attempts_witness :
    (loopRJ sign0 w0 fn0 (some refLit) envRej 0 false).2.1 = false ∧
    countPosts (loopRJ sign0 w0 fn0 (some refLit) envRej 0 false).2.2 = CONFIG.maxRetries ∧
    writesOf (registerWithRetryP0 sign0 w0 fn0 (some refLit) envRej 1).2 = [] := by
  have h := c3_exhaustion_after_max_attempts sign0 w0 fn0 (some refLit) envRej
    (fun n => rfl) (fun n => ⟨rejBody, rfl, rfl⟩)
  exact ⟨h.2.1, h.2.2.1, h.2.2.2.2.2.2.1⟩

theorem attemptOkRJ_netOk {env : AttemptEnv} {n : Nat}
    (h : attemptOkRJ env n = true) : env.netOk n = true ∧ attemptOkP0 env n = true := by
  simpa [attemptOkRJ, Bool.and_eq_true] using h

theorem theBody_of_ok {env : AttemptEnv} {n : Nat} {b : ApiResponse}
    (h : env.transport n = .ok b) : theBody env n = b := by
  simp [theBody, okBodyAt, h]

/-- Full characterization of one register.js retry-loop run. -/
theorem loopRJ_char (sign : String → String → String) (w : Wallet) (fn : String)
    (ref : Option String) (env : AttemptEnv) :
    (loopRJ sign w fn ref env 0 false).1 = stopAtRJ env ∧
    (loopRJ sign w fn ref env 0 false).2.1 = attemptOkRJ env (stopAtRJ env) ∧
    writesOf (loopRJ sign w fn ref env 0 false).2.2 =
      (if attemptOkRJ env (stopAtRJ env) = true then
        [(fn, mkRecord w ref (env.clock (stopAtRJ env)) (theBody env (stopAtRJ env)))]
       else []) ∧
    delaysOf (loopRJ sign w fn ref env 0 false).2.2 =
      List.replicate (stopAtRJ env - 1) CONFIG.retryDelay ∧
    countPosts (loopRJ sign w fn ref env 0 false).2.2 =
      ((List.range' 1 (stopAtRJ env)).filter (fun n => env.netOk n)).length := by
  rcases h1 : attemptOkRJ env 1 with _ | _
  · rcases h2 : attemptOkRJ env 2 with _ | _
    · rcases h3 : attemptOkRJ env 3 with _ | _
      · -- all three attempts fail
        obtain ⟨e1, he1⟩ := attemptRJ_err_of sign w ref env 1 h1
        obtain ⟨e2, he2⟩ := attemptRJ_err_of sign w ref env 2 h2
        obtain ⟨e3, he3⟩ := attemptRJ_err_of sign w ref env 3 h3
        have hs : stopAtRJ env = 3 := by
          simp [stopAtRJ, h1, h2, CONFIG]
        rw [loopRJ_step_err sign w fn ref env 0 e1 (by simp [CONFIG]) he1,
          loopRJ_step_err sign w fn ref env 1 e2 (by simp [CONFIG]) he2,
          loopRJ_step_err sign w fn ref env 2 e3 (by simp [CONFIG]) he3,
          loopRJ_stop sign w fn ref env 3 false (by simp [CONFIG]), hs, h3]
        refine ⟨by simp [CONFIG], rfl, ?_, ?_, ?_⟩
        · simp only [writesOf_append, attemptRJ_writesOf]
          simp [writesOf, CONFIG]
        · simp only [delaysOf_append, attemptRJ_delaysOf]
          simp [delaysOf, CONFIG, List.replicate]
        · simp only [countPosts, postsOf_append, attemptRJ_postsOf]
          have hr : List.range' 1 3 = [1, 2, 3] := by decide
          rw [hr]
          by_cases hn1 : env.netOk 1 <;> by_cases hn2 : env.netOk 2 <;>
            by_cases hn3 : env.netOk 3 <;>
            simp [hn1, hn2, hn3, postsOf, CONFIG]
      · -- attempt 3 succeeds
        obtain ⟨e1, he1⟩ := attemptRJ_err_of sign w ref env 1 h1
        obtain ⟨e2, he2⟩ := attemptRJ_err_of sign w ref env 2 h2
        obtain ⟨hn3, hp3⟩ := attemptOkRJ_netOk h3
        obtain ⟨b3, hb3, hbs3, hr3⟩ := attemptRJ_ok_of sign w ref env 3 hn3 hp3
        have hs : stopAtRJ env = 3 := by
          simp [stopAtRJ, h1, h2, CONFIG]
        have htb : theBody env 3 = b3 := theBody_of_ok hb3
        rw [loopRJ_step_err sign w fn ref env 0 e1 (by simp [CONFIG]) he1,
          loopRJ_step_err sign w fn ref env 1 e2 (by simp [CONFIG]) he2,
          loopRJ_step_ok sign w fn ref env 2 _ (by simp [CONFIG]) hr3, hs, h3, htb]
        refine ⟨by simp [CONFIG], rfl, ?_, ?_, ?_⟩
        · simp only [writesOf_append, attemptRJ_writesOf]
          simp [writesOf, CONFIG]
        · simp only [delaysOf_append, attemptRJ_delaysOf]
          simp [delaysOf, CONFIG, List.replicate]
        · simp only [countPosts, postsOf_append, attemptRJ_postsOf]
          have hr : List.range' 1 3 = [1, 2, 3] := by decide
          rw [hr]
          by_cases hm1 : env.netOk 1 <;> by_cases hm2 : env.netOk 2 <;>
            simp [hm1, hm2, hn3, postsOf, CONFIG]
    · -- attempt 2 succeeds
      obtain ⟨e1, he1⟩ := attemptRJ_err_of sign w ref env 1 h1
      obtain ⟨hn2, hp2⟩ := attemptOkRJ_netOk h2
      obtain ⟨b2, hb2, hbs2, hr2⟩ := attemptRJ_ok_of sign w ref env 2 hn2 hp2
      have hs : stopAtRJ env = 2 := by
        simp [stopAtRJ, h1, h2]
      have htb : theBody env 2 = b2 := theBody_of_ok hb2
      rw [loopRJ_step_err sign w fn ref env 0 e1 (by simp [CONFIG]) he1,
        loopRJ_step_ok sign w fn ref env 1 _ (by simp [CONFIG]) hr2, hs, h2, htb]
      refine ⟨by simp [CONFIG], rfl, ?_, ?_, ?_⟩
      · simp only [writesOf_append, attemptRJ_writesOf]
        simp [writesOf, CONFIG]
      · simp only [delaysOf_append, attemptRJ_delaysOf]
        simp [delaysOf, CONFIG, List.replicate]
      · simp only [countPosts, postsOf_append, attemptRJ_postsOf]
        have hr : List.range' 1 2 = [1, 2] := by decide
        rw [hr]
        by_cases hm1 : env.netOk 1 <;> simp [hm1, hn2, postsOf, CONFIG]
  · -- attempt 1 succeeds
    obtain ⟨hn1, hp1⟩ := attemptOkRJ_netOk h1
    obtain ⟨b1, hb1, hbs1, hr1⟩ := attemptRJ_ok_of sign w ref env 1 hn1 hp1
    have hs : stopAtRJ env = 1 := by
      simp [stopAtRJ, h1]
    have htb : theBody env 1 = b1 := theBody_of_ok hb1
    rw [loopRJ_step_ok sign w fn ref env 0 _ (by simp [CONFIG]) hr1, hs, h1, htb]
    refine ⟨rfl, rfl, ?_, ?_, ?_⟩
    · simp only [writesOf_append, attemptRJ_writesOf]
      simp [writesOf, CONFIG]
    · simp only [delaysOf_append, attemptRJ_delaysOf]
      simp [delaysOf]
    · simp only [countPosts, postsOf_append, attemptRJ_postsOf]
      simp [hn1, postsOf, CONFIG]

/-- Full characterization of one part_000 recursive-driver run. -/
theorem p0_char (sign : String → String → String) (w : Wallet) (fn : String)
    (ref : Option String) (env : AttemptEnv) :
    (registerWithRetryP0 sign w fn ref env 1).1 = attemptOkP0 env (stopAtP0 env) ∧
    writesOf (registerWithRetryP0 sign w fn ref env 1).2 =
      (if attemptOkP0 env (stopAtP0 env) = true then
        [(fn, mkRecord w ref (env.clock (stopAtP0 env)) (theBody env (stopAtP0 env)))]
       else []) ∧
    delaysOf (registerWithRetryP0 sign w fn ref env 1).2 =
      List.replicate (stopAtP0 env - 1) CONFIG.retryDelay ∧
    countPosts (registerWithRetryP0 sign w fn ref env 1).2 = stopAtP0 env := by
  rcases h1 : attemptOkP0 env 1 with _ | _
  · rcases h2 : attemptOkP0 env 2 with _ | _
    · rcases h3 : attemptOkP0 env 3 with _ | _
      · obtain ⟨e1, he1⟩ := p0_err_of sign w ref env 1 h1
        obtain ⟨e2, he2⟩ := p0_err_of sign w ref env 2 h2
        obtain ⟨e3, he3⟩ := p0_err_of sign w ref env 3 h3
        have hs : stopAtP0 env = 3 := by
          simp [stopAtP0, h1, h2, CONFIG]
        rw [p0_step_err_lt sign w fn ref env 1 e1 (by simp [CONFIG]) he1,
          p0_step_err_lt sign w fn ref env 2 e2 (by simp [CONFIG]) he2,
          p0_step_err_last sign w fn ref env 3 e3 (by simp [CONFIG]) he3, hs, h3]
        refine ⟨rfl, ?_, ?_, ?_⟩
        · simp only [writesOf_append, registerWalletP0_writesOf]
          simp [writesOf]
        · simp only [delaysOf_append, registerWalletP0_delaysOf]
          simp [delaysOf, CONFIG, List.replicate]
        · simp only [countPosts, postsOf_append, registerWalletP0_postsOf]
          simp [postsOf, CONFIG]
      · obtain ⟨e1, he1⟩ := p0_err_of sign w ref env 1 h1
        obtain ⟨e2, he2⟩ := p0_err_of sign w ref env 2 h2
        obtain ⟨b3, hb3, hbs3, hr3⟩ := p0_ok_of sign w ref env 3 h3
        have hs : stopAtP0 env = 3 := by
          simp [stopAtP0, h1, h2, CONFIG]
        have htb : theBody env 3 = b3 := theBody_of_ok hb3
        rw [p0_step_err_lt sign w fn ref env 1 e1 (by simp [CONFIG]) he1,
          p0_step_err_lt sign w fn ref env 2 e2 (by simp [CONFIG]) he2,
          p0_step_ok sign w fn ref env 3 _ hr3, hs, h3, htb]
        refine ⟨rfl, ?_, ?_, ?_⟩
        · simp only [writesOf_append, registerWalletP0_writesOf]
          simp [writesOf]
        · simp only [delaysOf_append, registerWalletP0_delaysOf]
          simp [delaysOf, CONFIG, List.replicate]
        · simp only [countPosts, postsOf_append, registerWalletP0_postsOf]
          simp [postsOf, CONFIG]
    · obtain ⟨e1, he1⟩ := p0_err_of sign w ref env 1 h1
      obtain ⟨b2, hb2, hbs2, hr2⟩ := p0_ok_of sign w ref env 2 h2
      have hs : stopAtP0 env = 2 := by
        simp [stopAtP0, h1, h2]
      have htb : theBody env 2 = b2 := theBody_of_ok hb2
      rw [p0_step_err_lt sign w fn ref env 1 e1 (by simp [CONFIG]) he1,
        p0_step_ok sign w fn ref env 2 _ hr2, hs, h2, htb]
      refine ⟨rfl, ?_, ?_, ?_⟩
      · simp only [writesOf_append, registerWalletP0_writesOf]
        simp [writesOf]
      · simp only [delaysOf_append, registerWalletP0_delaysOf]
        simp [delaysOf, CONFIG, List.replicate]
      · simp only [countPosts, postsOf_append, registerWalletP0_postsOf]
        simp [postsOf, CONFIG]
  · obtain ⟨b1, hb1, hbs1, hr1⟩ := p0_ok_of sign w ref env 1 h1
    have hs : stopAtP0 env = 1 := by
      simp [stopAtP0, h1]
    have htb : theBody env 1 = b1 := theBody_of_ok hb1
    rw [p0_step_ok sign w fn ref env 1 _ hr1, hs, h1, htb]
    refine ⟨rfl, ?_, ?_, ?_⟩
    · simp only [writesOf_append, registerWalletP0_writesOf]
      simp [writesOf]
    · simp only [delaysOf_append, registerWalletP0_delaysOf]
      simp [delaysOf]
    · simp only [countPosts, postsOf_append, registerWalletP0_postsOf]
      simp [postsOf]

theorem stopAtP0_bounds (env : AttemptEnv) :
    1 ≤ stopAtP0 env ∧ stopAtP0 env ≤ CONFIG.maxRetries := by
  rw [stopAtP0]
  by_cases h1 : attemptOkP0 env 1 <;> by_cases h2 : attemptOkP0 env 2 <;>
    simp [h1, h2, CONFIG]

theorem stopAtRJ_eq_stopAtP0 (env : AttemptEnv) (hnet : ∀ n, env.netOk n = true) :
    stopAtRJ env = stopAtP0 env := by
  rw [stopAtRJ, stopAtP0]
  simp [attemptOkRJ, hnet]

/-- C9: the iterative retry driver of src/register.js and the recursive
one of src/unnamed/part_000 are equivalent: for every wallet and every
sequence of per-attempt outcomes (with the connectivity check passing, the
one step only register.js has), both perform the same number of
registration calls — at most maxRetries — the same delays (the fixed delay
exactly between consecutive attempts, never after the last failed one),
stop at the first success, and make the same persist-or-skip decision. -/
theorem c9_retry_drivers_equivalent (sign : String → String → String)
    (w : Wallet) (fnR fnP : String) (ref : Option String) (env : AttemptEnv)
    (hnet : ∀ n, env.netOk n = true) :
    countPosts (loopRJ sign w fnR ref env 0 false).2.2 =
      countPosts (registerWithRetryP0 sign w fnP ref env 1).2 ∧
    delaysOf (loopRJ sign w fnR ref env 0 false).2.2 =
      delaysOf (registerWithRetryP0 sign w fnP ref env 1).2 ∧
    (loopRJ sign w fnR ref env 0 false).2.1 =
      (registerWithRetryP0 sign w fnP ref env 1).1 ∧
    (writesOf (loopRJ sign w fnR ref env 0 false).2.2).length =
      (writesOf (registerWithRetryP0 sign w fnP ref env 1).2).length ∧
    countPosts (loopRJ sign w fnR ref env 0 false).2.2 ≤ CONFIG.maxRetries ∧
    countDelays (loopRJ sign w fnR ref env 0 false).2.2 =
      countPosts (loopRJ sign w fnR ref env 0 false).2.2 - 1 ∧
    (∀ d ∈ delaysOf (loopRJ sign w fnR ref env 0 false).2.2, d = CONFIG.retryDelay) ∧
    (∀ k, 1 ≤ k → k ≤ CONFIG.maxRetries → attemptOkP0 env k = true →
      (∀ j, 1 ≤ j → j < k → attemptOkP0 env j = false) →
      countPosts (loopRJ sign w fnR ref env 0 false).2.2 = k ∧
      (loopRJ sign w fnR ref env 0 false).2.1 = true) := by
  obtain ⟨hcA, hcF, hcW, hcD, hcP⟩ := loopRJ_char sign w fnR ref env
  obtain ⟨hpF, hpW, hpD, hpP⟩ := p0_char sign w fnP ref env
  have hstop := stopAtRJ_eq_stopAtP0 env hnet
  have hcP2 : countPosts (loopRJ sign w fnR ref env 0 false).2.2 = stopAtP0 env := by
    rw [hcP, List.filter_eq_self.mpr (fun a _ => hnet a), List.length_range', hstop]
  have hok : attemptOkRJ env (stopAtRJ env) = attemptOkP0 env (stopAtP0 env) := by
    rw [hstop, attemptOkRJ, hnet]
    simp
  refine ⟨?_, ?_, ?_, ?_, ?_, ?_, ?_, ?_⟩
  · rw [hcP2, hpP]
  · rw [hcD, hpD, hstop]
  · rw [hcF, hpF, hok]
  · rw [hcW, hpW, hok]
    by_cases h : attemptOkP0 env (stopAtP0 env) = true <;> simp [h]
  · rw [hcP2]
    exact (stopAtP0_bounds env).2
  · rw [countDelays, hcD, hcP2, List.length_replicate, hstop]
  · intro d hd
    rw [hcD] at hd
    exact List.eq_of_mem_replicate hd
  · intro k hk1 hk3 hkok hprev
    have hks : stopAtP0 env = k := by
      have hc3 : CONFIG.maxRetries = 3 := rfl
      rw [hc3] at hk3
      interval_cases k
      · simp [stopAtP0, hkok]
      · have hj1 : attemptOkP0 env 1 = false := hprev 1 (by omega) (by omega)
        simp [stopAtP0, hj1, hkok]
      · have hj1 : attemptOkP0 env 1 = false := hprev 1 (by omega) (by omega)
        have hj2 : attemptOkP0 env 2 = false := hprev 2 (by omega) (by omega)
        simp [stopAtP0, hj1, hj2, CONFIG]
    constructor
    · rw [hcP2, hks]
    · rw [hcF, hok, hks, hkok]

/-- C9 witness: environment failing twice then succeeding; both drivers
make 3 calls, delay twice, and persist. -/
theorem c9_retry_drivers_equivalent_witness :
    countPosts (loopRJ sign0 w0 fn0 (some refLit) envRejRejOk 0 false).2.2 =
      countPosts (registerWithRetryP0 sign0 w0 (fileNameP0 1) (some refLit) envRejRejOk 1).2 ∧
    (loopRJ sign0 w0 fn0 (some refLit) envRejRejOk 0 false).2.1 =
      (registerWithRetryP0 sign0 w0 (fileNameP0 1) (some refLit) envRejRejOk 1).1 := by
  have h := c9_retry_drivers_equivalent sign0 w0 fn0 (fileNameP0 1) (some refLit)
    envRejRejOk (fun n => rfl)
  exact ⟨h.1, h.2.2.1⟩

theorem writesOf_join : ∀ ls : List (List Event),
    writesOf ls.join = (ls.map writesOf).join := by
  intro ls
  induction ls with
  | nil => simp [writesOf]
  | cons a as ih => simp [writesOf_append, ih]

theorem bulkRunRJ_results (sign : String → String → String) (refS : String)
    (wallets : Nat → Wallet) (names : Nat → String) (envs : Nat → AttemptEnv) :
    ∀ idxs : List Nat,
      (bulkRunRJ sign refS wallets names envs idxs).1 = idxs.map (fun i =>
        (i, (generateAndRegisterWalletRJ sign (wallets i) (names i) refS (envs i)).2.1)) := by
  intro idxs
  induction idxs with
  | nil => simp [bulkRunRJ]
  | cons i rest ih => simp [bulkRunRJ, ih]

theorem bulkRunRJ_trace (sign : String → String → String) (refS : String)
    (wallets : Nat → Wallet) (names : Nat → String) (envs : Nat → AttemptEnv) :
    ∀ idxs : List Nat,
      (bulkRunRJ sign refS wallets names envs idxs).2 = (idxs.map (fun i =>
        (generateAndRegisterWalletRJ sign (wallets i) (names i) refS (envs i)).2.2)).join := by
  intro idxs
  induction idxs with
  | nil => simp [bulkRunRJ]
  | cons i rest ih => simp [bulkRunRJ, ih]

theorem generateWalletsP0_results (sign : String → String → String)
    (refP : Option String) (wallets : Nat → Wallet) (envs : Nat → AttemptEnv) :
    ∀ idxs : List Nat,
      (generateWalletsP0 sign refP wallets envs idxs).1 = idxs.map (fun i =>
        (i, (registerWithRetryP0 sign (wallets i) (fileNameP0 i) refP (envs i) 1).1)) := by
  intro idxs
  induction idxs with
  | nil => simp [generateWalletsP0]
  | cons i rest ih => simp [generateWalletsP0, ih]

theorem generateWalletsP0_trace (sign : String → String → String)
    (refP : Option String) (wallets : Nat → Wallet) (envs : Nat → AttemptEnv) :
    ∀ idxs : List Nat,
      (generateWalletsP0 sign refP wallets envs idxs).2 = (idxs.map (fun i =>
        (registerWithRetryP0 sign (wallets i) (fileNameP0 i) refP (envs i) 1).2)).join := by
  intro idxs
  induction idxs with
  | nil => simp [generateWalletsP0]
  | cons i rest ih => simp [generateWalletsP0, ih]

theorem loopRJ_writes_le_one (sign : String → String → String) (w : Wallet)
    (fn : String) (ref : Option String) (env : AttemptEnv) :
    (writesOf (loopRJ sign w fn ref env 0 false).2.2).length ≤ 1 := by
  obtain ⟨-, -, hw, -, -⟩ := loopRJ_char sign w fn ref env
  rw [hw]
  by_cases h : attemptOkRJ env (stopAtRJ env) = true <;> simp [h]

theorem p0_writes_le_one (sign : String → String → String) (w : Wallet)
    (fn : String) (ref : Option String) (env : AttemptEnv) :
    (writesOf (registerWithRetryP0 sign w fn ref env 1).2).length ≤ 1 := by
  obtain ⟨-, hw, -, -⟩ := p0_char sign w fn ref env
  rw [hw]
  by_cases h : attemptOkP0 env (stopAtP0 env) = true <;> simp [h]

/-- C6: for every wallet count N, the register.js run processes exactly
the wallet indices 1..N in order, its trace is the in-order concatenation
of the per-wallet traces (wallet i+1 starts only after wallet i's retry
sequence ended), and at most N records are written; likewise for the
part_000 run. -/
theorem c6_processes_exactly_n_wallets (sign : String → String → String)
    (refS : String) (refP : Option String) (wallets : Nat → Wallet)
    (nowMs : Nat → Nat) (envs : Nat → AttemptEnv) (count : Nat) :
    ((mainRJ sign true count refS wallets nowMs envs).2.1).length = count ∧
    ((mainRJ sign true count refS wallets nowMs envs).2.1).map Prod.fst =
      List.range' 1 count ∧
    (mainRJ sign true count refS wallets nowMs envs).2.2 =
      ((List.range' 1 count).map (fun i => (generateAndRegisterWalletRJ sign (wallets i)
        (fileNameRJ i count (nowMs i)) refS (envs i)).2.2)).join ∧
    countWrites (mainRJ sign true count refS wallets nowMs envs).2.2 ≤ count ∧
    ((runP0 sign count refP wallets envs).1).length = count ∧
    ((runP0 sign count refP wallets envs).1).map Prod.fst = List.range' 1 count ∧
    (runP0 sign count refP wallets envs).2 =
      ((List.range' 1 count).map (fun i =>
        (registerWithRetryP0 sign (wallets i) (fileNameP0 i) refP (envs i) 1).2)).join ∧
    countWrites (runP0 sign count refP wallets envs).2 ≤ count := by
  have hmain : mainRJ sign true count refS wallets nowMs envs =
      (RunOutcome.completed count,
        bulkRunRJ sign refS wallets (fun i => fileNameRJ i count (nowMs i)) envs
          (List.range' 1 count)) := by
    rw [mainRJ]
    simp
  have hle : ∀ (names : Nat → String) (idxs : List Nat),
      countWrites (bulkRunRJ sign refS wallets names envs idxs).2 ≤ idxs.length := by
    intro names idxs
    induction idxs with
    | nil => simp [bulkRunRJ, countWrites, writesOf]
    | cons i rest ih =>
      have h1 := loopRJ_writes_le_one sign (wallets i) (names i)
        (if refS = "" then none else some refS) (envs i)
      simp only [bulkRunRJ, countWrites, writesOf_append, List.length_append,
        List.length_cons]
      simp only [countWrites] at ih
      have : (writesOf (generateAndRegisterWalletRJ sign (wallets i) (names i) refS
          (envs i)).2.2).length ≤ 1 := h1
      omega
  have hleP : ∀ idxs : List Nat,
      countWrites (generateWalletsP0 sign refP wallets envs idxs).2 ≤ idxs.length := by
    intro idxs
    induction idxs with
    | nil => simp [generateWalletsP0, countWrites, writesOf]
    | cons i rest ih =>
      have h1 := p0_writes_le_one sign (wallets i) (fileNameP0 i) refP (envs i)
      simp only [generateWalletsP0, countWrites, writesOf_append, List.length_append,
        List.length_cons]
      simp only [countWrites] at ih
      omega
  refine ⟨?_, ?_, ?_, ?_, ?_, ?_, ?_, ?_⟩
  · rw [hmain, bulkRunRJ_results]
    simp [List.length_range']
  · rw [hmain, bulkRunRJ_results]
    simp [List.map_map, Function.comp_def]
  · rw [hmain, bulkRunRJ_trace]
  · rw [hmain]
    have := hle (fun i => fileNameRJ i count (nowMs i)) (List.range' 1 count)
    simpa [List.length_range'] using this
  · rw [runP0, generateWalletsP0_results]
    simp [List.length_range']
  · rw [runP0, generateWalletsP0_results]
    simp [List.map_map, Function.comp_def]
  · rw [runP0, generateWalletsP0_trace]
  · rw [runP0]
    have := hleP (List.range' 1 count)
    simpa [List.length_range'] using this

/-- C6 witness: a concrete three-wallet run. -/
theorem c6_processes_exactly_n_wallets_witness :
    ((mainRJ sign0 true 3 refLit (fun _ => w0) (fun _ => 7) (fun _ => envOk)).2.1).length = 3 ∧
    countWrites (mainRJ sign0 true 3 refLit (fun _ => w0) (fun _ => 7)
      (fun _ => envOk)).2.2 ≤ 3 := by
  have h := c6_processes_exactly_n_wallets sign0 refLit (some refLit) (fun _ => w0)
    (fun _ => 7) (fun _ => envOk) 3
  exact ⟨h.1, h.2.2.2.1⟩

theorem stopAtRJ_bounds (env : AttemptEnv) :
    1 ≤ stopAtRJ env ∧ stopAtRJ env ≤ CONFIG.maxRetries := by
  rw [stopAtRJ]
  by_cases h1 : attemptOkRJ env 1 <;> by_cases h2 : attemptOkRJ env 2 <;>
    simp [h1, h2, CONFIG]

theorem attemptOkP0_ok_body {env : AttemptEnv} {k : Nat}
    (h : attemptOkP0 env k = true) :
    ∃ body, env.transport k = .ok body ∧ body.success = true ∧ theBody env k = body := by
  rcases ht : env.transport k with body | e
  · simp only [attemptOkP0, ht] at h
    exact ⟨body, rfl, h, theBody_of_ok ht⟩
  · simp [attemptOkP0, ht] at h

theorem loopRJ_writes_cases (sign : String → String → String) (w : Wallet)
    (fn : String) (ref : Option String) (env : AttemptEnv) :
    ((loopRJ sign w fn ref env 0 false).2.1 = false ∧
      writesOf (loopRJ sign w fn ref env 0 false).2.2 = []) ∨
    ((loopRJ sign w fn ref env 0 false).2.1 = true ∧
      ∃ k body, 1 ≤ k ∧ k ≤ CONFIG.maxRetries ∧ env.netOk k = true ∧
        env.transport k = .ok body ∧ body.success = true ∧
        writesOf (loopRJ sign w fn ref env 0 false).2.2 =
          [(fn, mkRecord w ref (env.clock k) body)]) := by
  obtain ⟨-, hf, hw, -, -⟩ := loopRJ_char sign w fn ref env
  by_cases hok : attemptOkRJ env (stopAtRJ env) = true
  · right
    obtain ⟨hn, hp⟩ := attemptOkRJ_netOk hok
    obtain ⟨body, ht, hbs, htb⟩ := attemptOkP0_ok_body hp
    refine ⟨by rw [hf, hok], stopAtRJ env, body, (stopAtRJ_bounds env).1,
      (stopAtRJ_bounds env).2, hn, ht, hbs, ?_⟩
    rw [hw, if_pos hok, htb]
  · left
    have hok2 : attemptOkRJ env (stopAtRJ env) = false := by
      revert hok
      cases attemptOkRJ env (stopAtRJ env) <;> simp
    exact ⟨by rw [hf, hok2], by rw [hw, if_neg hok]⟩

theorem p0_writes_cases (sign : String → String → String) (w : Wallet)
    (fn : String) (ref : Option String) (env : AttemptEnv) :
    ((registerWithRetryP0 sign w fn ref env 1).1 = false ∧
      writesOf (registerWithRetryP0 sign w fn ref env 1).2 = []) ∨
    ((registerWithRetryP0 sign w fn ref env 1).1 = true ∧
      ∃ k body, 1 ≤ k ∧ k ≤ CONFIG.maxRetries ∧
        env.transport k = .ok body ∧ body.success = true ∧
        writesOf (registerWithRetryP0 sign w fn ref env 1).2 =
          [(fn, mkRecord w ref (env.clock k) body)]) := by
  obtain ⟨hf, hw, -, -⟩ := p0_char sign w fn ref env
  by_cases hok : attemptOkP0 env (stopAtP0 env) = true
  · right
    obtain ⟨body, ht, hbs, htb⟩ := attemptOkP0_ok_body hok
    refine ⟨by rw [hf, hok], stopAtP0 env, body, (stopAtP0_bounds env).1,
      (stopAtP0_bounds env).2, ht, hbs, ?_⟩
    rw [hw, if_pos hok, htb]
  · left
    have hok2 : attemptOkP0 env (stopAtP0 env) = false := by
      revert hok
      cases attemptOkP0 env (stopAtP0 env) <;> simp
    exact ⟨by rw [hf, hok2], by rw [hw, if_neg hok]⟩

theorem bulk_writes_RJ (sign : String → String → String) (refS : String)
    (wallets : Nat → Wallet) (names : Nat → String) (envs : Nat → AttemptEnv) :
    ∀ idxs : List Nat,
      (writesOf (bulkRunRJ sign refS wallets names envs idxs).2).length =
        (((bulkRunRJ sign refS wallets names envs idxs).1).filter (fun p => p.2)).length ∧
      (writesOf (bulkRunRJ sign refS wallets names envs idxs).2).map Prod.fst =
        (((bulkRunRJ sign refS wallets names envs idxs).1).filter (fun p => p.2)).map
          (fun p => names p.1) ∧
      ∀ pr ∈ writesOf (bulkRunRJ sign refS wallets names envs idxs).2, ∃ i, i ∈ idxs ∧
        pr.1 = names i ∧ ∃ k body, 1 ≤ k ∧ k ≤ CONFIG.maxRetries ∧
          (envs i).netOk k = true ∧ (envs i).transport k = .ok body ∧
          body.success = true ∧
          pr.2 = mkRecord (wallets i) (if refS = "" then none else some refS)
            ((envs i).clock k) body := by
  intro idxs
  induction idxs with
  | nil => simp [bulkRunRJ, writesOf]
  | cons i rest ih =>
    obtain ⟨ih1, ih2, ih3⟩ := ih
    rcases loopRJ_writes_cases sign (wallets i) (names i)
        (if refS = "" then none else some refS) (envs i) with
      ⟨hfl, hwl⟩ | ⟨hfl, k, bdy, hk1, hk3, hnk, htk, hbs, hwl⟩
    · refine ⟨?_, ?_, ?_⟩
      · simp only [bulkRunRJ, writesOf_append, generateAndRegisterWalletRJ, hwl,
          List.nil_append, List.filter_cons, hfl]
        simpa using ih1
      · simp only [bulkRunRJ, writesOf_append, generateAndRegisterWalletRJ, hwl,
          List.nil_append, List.filter_cons, hfl]
        simpa using ih2
      · intro pr hpr
        simp only [bulkRunRJ, writesOf_append, generateAndRegisterWalletRJ, hwl,
          List.nil_append] at hpr
        obtain ⟨j, hj, hrest⟩ := ih3 pr hpr
        exact ⟨j, List.mem_cons_of_mem i hj, hrest⟩
    · refine ⟨?_, ?_, ?_⟩
      · simp only [bulkRunRJ, writesOf_append, generateAndRegisterWalletRJ, hwl,
          List.filter_cons, hfl, List.singleton_append, List.length_cons]
        simpa using ih1
      · simp only [bulkRunRJ, writesOf_append, generateAndRegisterWalletRJ, hwl,
          List.filter_cons, hfl, List.singleton_append, List.map_cons]
        simpa using ih2
      · intro pr hpr
        simp only [bulkRunRJ, writesOf_append, generateAndRegisterWalletRJ, hwl,
          List.singleton_append, List.mem_cons] at hpr
        rcases hpr with hpr | hpr
        · subst hpr
          exact ⟨i, List.mem_cons_self i rest, rfl, k, bdy, hk1, hk3, hnk, htk, hbs, rfl⟩
        · obtain ⟨j, hj, hrest⟩ := ih3 pr hpr
          exact ⟨j, List.mem_cons_of_mem i hj, hrest⟩

theorem bulk_writes_P0 (sign : String → String → String) (refP : Option String)
    (wallets : Nat → Wallet) (envs : Nat → AttemptEnv) :
    ∀ idxs : List Nat,
      (writesOf (generateWalletsP0 sign refP wallets envs idxs).2).length =
        (((generateWalletsP0 sign refP wallets envs idxs).1).filter (fun p => p.2)).length ∧
      (writesOf (generateWalletsP0 sign refP wallets envs idxs).2).map Prod.fst =
        (((generateWalletsP0 sign refP wallets envs idxs).1).filter (fun p => p.2)).map
          (fun p => fileNameP0 p.1) ∧
      ∀ pr ∈ writesOf (generateWalletsP0 sign refP wallets envs idxs).2, ∃ i, i ∈ idxs ∧
        pr.1 = fileNameP0 i ∧ ∃ k body, 1 ≤ k ∧ k ≤ CONFIG.maxRetries ∧
          (envs i).transport k = .ok body ∧ body.success = true ∧
          pr.2 = mkRecord (wallets i) refP ((envs i).clock k) body := by
  intro idxs
  induction idxs with
  | nil => simp [generateWalletsP0, writesOf]
  | cons i rest ih =>
    obtain ⟨ih1, ih2, ih3⟩ := ih
    rcases p0_writes_cases sign (wallets i) (fileNameP0 i) refP (envs i) with
      ⟨hfl, hwl⟩ | ⟨hfl, k, bdy, hk1, hk3, htk, hbs, hwl⟩
    · refine ⟨?_, ?_, ?_⟩
      · simp only [generateWalletsP0, writesOf_append, hwl, List.nil_append,
          List.filter_cons, hfl]
        simpa using ih1
      · simp only [generateWalletsP0, writesOf_append, hwl, List.nil_append,
          List.filter_cons, hfl]
        simpa using ih2
      · intro pr hpr
        simp only [generateWalletsP0, writesOf_append, hwl, List.nil_append] at hpr
        obtain ⟨j, hj, hrest⟩ := ih3 pr hpr
        exact ⟨j, List.mem_cons_of_mem i hj, hrest⟩
    · refine ⟨?_, ?_, ?_⟩
      · simp only [generateWalletsP0, writesOf_append, hwl, List.filter_cons, hfl,
          List.singleton_append, List.length_cons]
        simpa using ih1
      · simp only [generateWalletsP0, writesOf_append, hwl, List.filter_cons, hfl,
          List.singleton_append, List.map_cons]
        simpa using ih2
      · intro pr hpr
        simp only [generateWalletsP0, writesOf_append, hwl, List.singleton_append,
          List.mem_cons] at hpr
        rcases hpr with hpr | hpr
        · subst hpr
          exact ⟨i, List.mem_cons_self i rest, rfl, k, bdy, hk1, hk3, htk, hbs, rfl⟩
        · obtain ⟨j, hj, hrest⟩ := ih3 pr hpr
          exact ⟨j, List.mem_cons_of_mem i hj, hrest⟩

/-- C5: persisted records are written exactly for the wallets whose
registration succeeded — one uniquely named file per succeeded wallet,
none for an exhausted wallet — and every written record is the mkRecord of
its wallet: address, private key, mnemonic, referral code (or the
sentinel) and the server's success body, stamped with the succeeding
attempt's timestamp. Holds for a whole run of either variant. -/
theorem c5_persistence_invariant (sign : String → String → String)
    (refS : String) (refP : Option String) (wallets : Nat → Wallet)
    (nowMs : Nat → Nat) (envs : Nat → AttemptEnv) (count : Nat) :
    (writesOf (mainRJ sign true count refS wallets nowMs envs).2.2).length =
      (((mainRJ sign true count refS wallets nowMs envs).2.1).filter
        (fun p => p.2)).length ∧
    ((writesOf (mainRJ sign true count refS wallets nowMs envs).2.2).map
      Prod.fst).Nodup ∧
    (∀ pr ∈ writesOf (mainRJ sign true count refS wallets nowMs envs).2.2,
      ∃ i, i ∈ List.range' 1 count ∧ pr.1 = fileNameRJ i count (nowMs i) ∧
        ∃ k body, 1 ≤ k ∧ k ≤ CONFIG.maxRetries ∧ (envs i).netOk k = true ∧
          (envs i).transport k = .ok body ∧ body.success = true ∧
          pr.2 = mkRecord (wallets i) (if refS = "" then none else some refS)
            ((envs i).clock k) body) ∧
    (writesOf (runP0 sign count refP wallets envs).2).length =
      (((runP0 sign count refP wallets envs).1).filter (fun p => p.2)).length ∧
    ((writesOf (runP0 sign count refP wallets envs).2).map Prod.fst).Nodup ∧
    (∀ pr ∈ writesOf (runP0 sign count refP wallets envs).2,
      ∃ i, i ∈ List.range' 1 count ∧ pr.1 = fileNameP0 i ∧
        ∃ k body, 1 ≤ k ∧ k ≤ CONFIG.maxRetries ∧
          (envs i).transport k = .ok body ∧ body.success = true ∧
          pr.2 = mkRecord (wallets i) refP ((envs i).clock k) body) := by
  have hmain : mainRJ sign true count refS wallets nowMs envs =
      (RunOutcome.completed count,
        bulkRunRJ sign refS wallets (fun i => fileNameRJ i count (nowMs i)) envs
          (List.range' 1 count)) := by
    rw [mainRJ]
    simp
  obtain ⟨hb1, hb2, hb3⟩ := bulk_writes_RJ sign refS wallets
    (fun i => fileNameRJ i count (nowMs i)) envs (List.range' 1 count)
  obtain ⟨hp1, hp2, hp3⟩ := bulk_writes_P0 sign refP wallets envs (List.range' 1 count)
  have hnodupRJ : ((List.range' 1 count).map
      (fun i => fileNameRJ i count (nowMs i))).Nodup := by
    refine List.Nodup.map_on ?_ (List.nodup_range' 1 count)
    intro x _ y _ hxy
    exact fileNameRJ_inj hxy
  have hnodupP0 : ((List.range' 1 count).map fileNameP0).Nodup := by
    refine List.Nodup.map_on ?_ (List.nodup_range' 1 count)
    intro x _ y _ hxy
    exact fileNameP0_inj hxy
  have hresRJ := bulkRunRJ_results sign refS wallets
    (fun i => fileNameRJ i count (nowMs i)) envs (List.range' 1 count)
  have hresP0 := generateWalletsP0_results sign refP wallets envs (List.range' 1 count)
  refine ⟨?_, ?_, ?_, ?_, ?_, ?_⟩
  · rw [hmain]
    exact hb1
  · rw [hmain]
    rw [hb2]
    have hsub : ((((bulkRunRJ sign refS wallets
          (fun i => fileNameRJ i count (nowMs i)) envs (List.range' 1 count)).1).filter
          (fun p => p.2)).map (fun p => fileNameRJ p.1 count (nowMs p.1))).Sublist
        (((bulkRunRJ sign refS wallets (fun i => fileNameRJ i count (nowMs i)) envs
          (List.range' 1 count)).1).map (fun p => fileNameRJ p.1 count (nowMs p.1))) :=
      (List.filter_sublist _).map _
    refine hsub.nodup ?_
    rw [hresRJ, List.map_map]
    simpa [Function.comp_def] using hnodupRJ
  · rw [hmain]
    exact hb3
  · rw [runP0]
    exact hp1
  · rw [runP0]
    rw [hp2]
    have hsub : ((((generateWalletsP0 sign refP wallets envs
          (List.range' 1 count)).1).filter (fun p => p.2)).map
          (fun p => fileNameP0 p.1)).Sublist
        (((generateWalletsP0 sign refP wallets envs (List.range' 1 count)).1).map
          (fun p => fileNameP0 p.1)) :=
      (List.filter_sublist _).map _
    refine hsub.nodup ?_
    rw [hresP0, List.map_map]
    simpa [Function.comp_def] using hnodupP0
  · rw [runP0]
    exact hp3

/-- C5 witness: concrete two-wallet run whose every attempt succeeds. -/
theorem c5_persistence_invariant_witness :
    (writesOf (mainRJ sign0 true 2 refLit (fun _ => w0) (fun i => i)
        (fun _ => envOk)).2.2).length =
      (((mainRJ sign0 true 2 refLit (fun _ => w0) (fun i => i)
        (fun _ => envOk)).2.1).filter (fun p => p.2)).length ∧
    ((writesOf (runP0 sign0 2 (some refLit) (fun _ => w0)
        (fun _ => envOk)).2).map Prod.fst).Nodup := by
  have h := c5_persistence_invariant sign0 refLit (some refLit) (fun _ => w0)
    (fun i => i) (fun _ => envOk) 2
  exact ⟨h.1, h.2.2.2.2.1⟩

theorem find?_mapped_extra_none (E : List (String × String)) (key : String)
    (hx : ∀ p ∈ E, ¬ p.1 = key) :
    (E.map (fun p => (p.1, Json.str p.2))).find? (fun p => p.1 = key) = none := by
  apply List.find?_eq_none.mpr
  intro x hxm
  obtain ⟨p, hp, rfl⟩ := List.mem_map.mp hxm
  simpa using hx p hp

theorem filterMap_mapped_extra (E : List (String × String)) :
    (E.map (fun p => (p.1, Json.str p.2))).filterMap
      (fun p => (Json.asStr p.2).map (fun s => (p.1, s))) = E := by
  simp [List.filterMap_map, Function.comp_def, Json.asStr]

theorem filter_mapped_extra (E : List (String × String))
    (hx : ∀ p ∈ E, ¬ p.1 ∈ reservedApiKeys) :
    (E.map (fun p => (p.1, Json.str p.2))).filter
      (fun p => ¬ p.1 ∈ reservedApiKeys) = E.map (fun p => (p.1, Json.str p.2)) := by
  apply List.filter_eq_self.mpr
  intro a ha
  obtain ⟨q, hq, rfl⟩ := List.mem_map.mp ha
  simpa using hx q hq

theorem asStr_str (s : String) : (Json.str s).asStr = some s := rfl

/-- Round-trip of the ApiResponse serialization, provided the opaque extra
fields avoid the two reserved keys. -/
theorem parseApiResponse_roundtrip (b : ApiResponse)
    (hx : ∀ p ∈ b.extra, ¬ p.1 ∈ reservedApiKeys) :
    parseApiResponse (apiResponseToJson b) = some b := by
  obtain ⟨bs, bm, be⟩ := b
  have hxe : ∀ p ∈ be, ¬ p.1 ∈ reservedApiKeys := hx
  have hxm : ∀ p ∈ be, ¬ p.1 = messageKey := by
    intro p hp h
    exact hxe p hp (by simp [reservedApiKeys, h])
  have hfind := find?_mapped_extra_none be messageKey hxm
  have hfm := filterMap_mapped_extra be
  have hfilter2 : List.filter
      (fun p => !decide (p.1 = "success") && !decide (p.1 = "message"))
      (List.map (fun p => (p.1, Json.str p.2)) be) =
      List.map (fun p => (p.1, Json.str p.2)) be := by
    apply List.filter_eq_self.mpr
    intro a ha
    obtain ⟨q, hq, rfl⟩ := List.mem_map.mp ha
    have hq2 := hxe q hq
    simp [reservedApiKeys] at hq2
    simpa using hq2
  simp only [successKey, messageKey] at hfind
  rcases bm with _ | m
  · simp [parseApiResponse, apiResponseToJson, hfind, hfilter2, hfm, asStr_str,
      successKey, messageKey, reservedApiKeys]
  · simp [parseApiResponse, apiResponseToJson, hfind, hfilter2, hfm, asStr_str,
      successKey, messageKey, reservedApiKeys]

/-- Round-trip of the whole persisted record serialization. -/
theorem parseRecord_roundtrip (r : PersistedRecord)
    (hx : ∀ p ∈ r.apiResponse.extra, ¬ p.1 ∈ reservedApiKeys) :
    parseRecord (recordToJson r) = some r := by
  obtain ⟨ra, rp, rm, rr, rt, rapi⟩ := r
  have hapi : parseApiResponse (apiResponseToJson rapi) = some rapi :=
    parseApiResponse_roundtrip rapi hx
  rcases rm with _ | m <;>
    simp [parseRecord, recordToJson, Json.getField, asStr_str, hapi,
      addressKey, privateKeyKey, mnemonicKey, referralCodeKey, registeredAtKey,
      apiResponseKey]

/-- C7: for every successful registration, the persisted record, parsed
back from its serialized form, reproduces the original wallet address, the
referral code that was used (or the sentinel), and the server's response
payload unchanged (the response's opaque fields avoiding the serializer's
two reserved keys). Holds for the record produced by either variant. -/
theorem c7_record_roundtrip (sign : String → String → String) (w : Wallet)
    (ref : Option String) (now : String) (body : ApiResponse)
    (hs : body.success = true)
    (hx : ∀ p ∈ body.extra, ¬ p.1 ∈ reservedApiKeys) :
    (registerWalletRJ sign w ref now (.ok body)).1 = .ok (mkRecord w ref now body) ∧
    (registerWalletP0 sign w ref now (.ok body)).1 = .ok (mkRecord w ref now body) ∧
    parseRecord (recordToJson (mkRecord w ref now body)) =
      some (mkRecord w ref now body) ∧
    (mkRecord w ref now body).address = w.address ∧
    (mkRecord w ref now body).referralCode = jsOrStr ref noneSentinel ∧
    (mkRecord w ref now body).apiResponse = body := by
  refine ⟨?_, ?_, ?_, rfl, rfl, rfl⟩
  · simp [registerWalletRJ, hs]
  · simp [registerWalletP0, hs]
  · exact parseRecord_roundtrip (mkRecord w ref now body)
      (by simpa [mkRecord] using hx)

/-- C7 witness: concrete success record round-trips. -/
theorem c7_record_roundtrip_witness :
    parseRecord (recordToJson (mkRecord w0 (some refLit) nowLit okBody)) =
      some (mkRecord w0 (some refLit) nowLit okBody) ∧
    (mkRecord w0 (some refLit) nowLit okBody).referralCode = refLit := by
  have hx : ∀ p ∈ okBody.extra, ¬ p.1 ∈ reservedApiKeys := by
    intro p hp
    simp [okBody, userIdKey] at hp
    simp [hp, reservedApiKeys, successKey, messageKey, userIdKey]
  have h := c7_record_roundtrip sign0 w0 (some refLit) nowLit okBody rfl hx
  refine ⟨h.2.2.1, ?_⟩
  rw [h.2.2.2.2.1]
  simp [jsOrStr, refLit]

end Synthelix

